import Mathlib

/-!
# Verification of the hoedown Markdown parser core (`src/markdown.c`)

This file gives a shallow embedding, in Lean 4, of the parts of
`markdown.c` that the specification talks about: the link-reference
hash table, the inline parser with its per-character handlers, the
block parser, the two work-buffer pools (modelled by their sizes, which
is all the claims observe), and the `hoedown_markdown_render` driver.

Modelling conventions:
* machine bytes are `Nat` (values 0..255 in every reachable call);
  `unsigned int` arithmetic is `Nat` arithmetic reduced `% 2^32` where
  the C code can wrap;
* a `hoedown_buffer` is its byte content, `List Nat`; pool buffers are
  handed out empty, so a pool is modelled by the number of buffers in
  use (`newbuf` increments, `popbuf` decrements) — buffer *contents*
  live in ordinary Lean lets;
* C pointers into the input array become a base list plus offsets;
  `data[k]` on a pointer `data + off` becomes `byteAt d (off + k)`;
* renderer callbacks are optional Lean functions taking the current
  output buffer and returning the new one (plus a `Bool` for callbacks
  returning `int`);
* the external collaborators that the spec excludes (autolink scanners,
  block-tag recognition) are parameters of the model;
* recursion between the inline and block parsers goes through an
  explicit `fuel` argument; every theorem either holds for all fuel or
  states its fuel explicitly.
-/

namespace Hoedown

/-- Byte buffer: the content of a `hoedown_buffer`. -/
abbrev Buf := List Nat

/-- `data[i]` for a base list and an absolute index (all reachable
reads in the C code are in bounds; the default is never observable). -/
def byteAt (d : Buf) (i : Nat) : Nat := d.getD i 0

/-- `tolower` on a byte in the C locale: only ASCII `A`..`Z` move. -/
def asciiTolower (c : Nat) : Nat := if 65 ≤ c ∧ c ≤ 90 then c + 32 else c

/-- `_isspace` (markdown.c): only space and newline. -/
def isspace (c : Nat) : Bool := c == 32 || c == 10

/-- `isalnum` on a byte in the C locale: ASCII digits and letters. -/
def isalnum (c : Nat) : Bool :=
  (48 ≤ c && c ≤ 57) || (65 ≤ c && c ≤ 90) || (97 ≤ c && c ≤ 122)

/-! ## Link references (`hash_link_ref`, `add_link_ref`, `find_link_ref`) -/

/-- One step of the rolling hash:
`hash = tolower(c) + (hash << 6) + (hash << 16) - hash` in 32-bit
unsigned arithmetic.  The subtrahend never exceeds the sum, so `Nat`
subtraction followed by `% 2^32` is exact. -/
def hashStep (hash c : Nat) : Nat :=
  (asciiTolower c + (hash <<< 6) + (hash <<< 16) - hash) % 4294967296

/-- `hash_link_ref`: case-folded 32-bit rolling hash of a name. -/
def hash_link_ref (name : Buf) : Nat := name.foldl hashStep 0

/-- `struct link_ref`, minus the intrusive `next` pointer (buckets are
Lean lists).  `link` and `title` are filled by `is_ref` right after
`add_link_ref` returns the fresh entry; the model fuses the two. -/
structure LinkRef where
  id : Nat
  link : Buf
  title : Option Buf
deriving Repr, DecidableEq

/-- The reference table: `REF_TABLE_SIZE = 8` separate-chaining
buckets (indexed by `hash % 8`), newest entry at the head of its
bucket. -/
abbrev RefTable := Nat → List LinkRef

/-- The zeroed table `render` starts from. -/
def emptyRefs : RefTable := fun _ => []

/-- `add_link_ref` (plus the caller filling `link`/`title`): hash the
name and push a fresh entry on the front of bucket `id % 8`. -/
def add_link_ref (references : RefTable) (name : Buf)
    (link : Buf) (title : Option Buf) : RefTable :=
  fun b =>
    if b = hash_link_ref name % 8 then
      { id := hash_link_ref name, link, title } ::
        references (hash_link_ref name % 8)
    else references b

/-- `find_link_ref`: hash the query and return the first entry of the
bucket whose stored hash equals it — no byte comparison of names. -/
def find_link_ref (references : RefTable) (name : Buf) : Option LinkRef :=
  (references (hash_link_ref name % 8)).find?
    (fun r => r.id == hash_link_ref name)

/-- A table is well-formed when every entry sits in the bucket selected
by its own hash — true of every table built by `add_link_ref` from the
zeroed table. -/
def RefsWF (references : RefTable) : Prop :=
  ∀ b : Fin 8, ∀ r ∈ references b.val, r.id % 8 = b.val

theorem emptyRefs_wf : RefsWF emptyRefs := by
  intro b r hr; simp [emptyRefs] at hr

theorem add_link_ref_wf (refs : RefTable) (name link : Buf) (title : Option Buf)
    (h : RefsWF refs) : RefsWF (add_link_ref refs name link title) := by
  intro b r hr
  simp only [add_link_ref] at hr
  split at hr
  · rename_i hb
    rcases List.mem_cons.1 hr with h1 | h1
    · subst h1; simpa using hb.symm
    · have := h ⟨hash_link_ref name % 8, Nat.mod_lt _ (by decide)⟩ r h1
      simpa [hb] using this
  · exact h b r hr

theorem asciiTolower_idem (c : Nat) :
    asciiTolower (asciiTolower c) = asciiTolower c := by
  unfold asciiTolower
  split <;> rename_i h
  · rw [if_neg (by omega)]
  · rfl

theorem hashStep_tolower (h c : Nat) :
    hashStep h (asciiTolower c) = hashStep h c := by
  simp [hashStep, asciiTolower_idem]

/-- The hash only sees the case-folded name. -/
theorem hash_link_ref_tolower (name : Buf) :
    hash_link_ref (name.map asciiTolower) = hash_link_ref name := by
  simp only [hash_link_ref, List.foldl_map, hashStep_tolower]

/-- C1: reference-identifier equality is hash-only and
ASCII-case-insensitive.  For a well-formed table, `find_link_ref`
succeeds iff some stored entry's 32-bit rolling hash equals the query
name's hash (no byte comparison enters the answer), and case-folding
the query does not change the result. -/
theorem claim_C1 (refs : RefTable) (name : Buf) (h : RefsWF refs) :
    ((find_link_ref refs name).isSome ↔
      ∃ b : Fin 8, ∃ r ∈ refs b.val, r.id = hash_link_ref name) ∧
    find_link_ref refs (name.map asciiTolower) = find_link_ref refs name := by
  constructor
  · constructor
    · intro hs
      obtain ⟨r, hr, hp⟩ := List.find?_isSome.1 hs
      exact ⟨⟨hash_link_ref name % 8, Nat.mod_lt _ (by decide)⟩, r, hr,
        by simpa using hp⟩
    · rintro ⟨b, r, hr, hid⟩
      have hb := h b r hr
      have hbv : (b : Nat) = hash_link_ref name % 8 := by rw [← hb, hid]
      apply List.find?_isSome.2
      refine ⟨r, ?_, by simp [hid]⟩
      show r ∈ refs (hash_link_ref name % 8)
      rw [← hbv]; exact hr
  · simp only [find_link_ref, hash_link_ref_tolower]

/-- A concrete table holding `FOO`, looked up through `foo` (the
case-folded form): the hypotheses of `claim_C1` are satisfiable. -/
theorem claim_C1_witness :
    RefsWF (add_link_ref emptyRefs [70, 79, 79] [104] none) ∧
    (((find_link_ref (add_link_ref emptyRefs [70, 79, 79] [104] none)
        ([70, 79, 79] : Buf)).isSome ↔
      ∃ b : Fin 8, ∃ r ∈ add_link_ref emptyRefs [70, 79, 79] [104] none b.val,
        r.id = hash_link_ref [70, 79, 79]) ∧
      find_link_ref (add_link_ref emptyRefs [70, 79, 79] [104] none)
          (([70, 79, 79] : Buf).map asciiTolower) =
        find_link_ref (add_link_ref emptyRefs [70, 79, 79] [104] none)
          [70, 79, 79]) :=
  ⟨add_link_ref_wf _ _ _ _ emptyRefs_wf,
   claim_C1 _ [70, 79, 79] (add_link_ref_wf _ _ _ _ emptyRefs_wf)⟩

/-- C2 as stated is false: `add_link_ref` pushes new entries on the
*front* of the bucket chain and `find_link_ref` returns the first hash
match, so of two colliding definitions the *last* inserted wins.
`axjgjz` and `ziieqj` are distinct ids with equal rolling hash; after
inserting `axjgjz ↦ [49]` and then `ziieqj ↦ [50]`, both lookups
return the second definition `[50]`, not the first. -/
theorem claim_C2_counterexample :
    ([97, 120, 106, 103, 106, 122] : Buf) ≠ [122, 105, 105, 101, 113, 106] ∧
    hash_link_ref [97, 120, 106, 103, 106, 122] =
      hash_link_ref [122, 105, 105, 101, 113, 106] ∧
    find_link_ref
        (add_link_ref (add_link_ref emptyRefs [97, 120, 106, 103, 106, 122] [49] none)
          [122, 105, 105, 101, 113, 106] [50] none)
        [97, 120, 106, 103, 106, 122] =
      some { id := hash_link_ref [122, 105, 105, 101, 113, 106],
             link := [50], title := none } ∧
    find_link_ref
        (add_link_ref (add_link_ref emptyRefs [97, 120, 106, 103, 106, 122] [49] none)
          [122, 105, 105, 101, 113, 106] [50] none)
        [122, 105, 105, 101, 113, 106] =
      some { id := hash_link_ref [122, 105, 105, 101, 113, 106],
             link := [50], title := none } := by
  refine ⟨by decide, by decide, ?_, ?_⟩ <;> decide

/-- C2 amended: when two definitions with hash-equal identifiers are
added in order, any query whose hash equals theirs resolves to the
definition that was inserted *last*. -/
theorem claim_C2 (refs : RefTable) (n1 l1 n2 l2 q : Buf)
    (t1 t2 : Option Buf)
    (hq : hash_link_ref q = hash_link_ref n2) :
    find_link_ref (add_link_ref (add_link_ref refs n1 l1 t1) n2 l2 t2) q =
      some { id := hash_link_ref n2, link := l2, title := t2 } := by
  unfold find_link_ref add_link_ref
  simp [hq]

/-- The amended C2 at the colliding pair: the query `axjgjz` hashes
like `ziieqj`, so it resolves to the `ziieqj` definition. -/
theorem claim_C2_witness :
    hash_link_ref [97, 120, 106, 103, 106, 122] =
      hash_link_ref [122, 105, 105, 101, 113, 106] ∧
    find_link_ref
        (add_link_ref (add_link_ref emptyRefs [97, 120, 106, 103, 106, 122] [49] none)
          [122, 105, 105, 101, 113, 106] [50] none)
        [97, 120, 106, 103, 106, 122] =
      some { id := hash_link_ref [122, 105, 105, 101, 113, 106],
             link := [50], title := none } :=
  ⟨by decide,
   claim_C2 emptyRefs [97, 120, 106, 103, 106, 122] [49]
     [122, 105, 105, 101, 113, 106] [50] [97, 120, 106, 103, 106, 122]
     none none (by decide)⟩

/-! ## Parser data model -/

/-- `struct footnote_ref`.  `footnotes_found` owns the refs; the
`footnotes_used` list aliases them, modelled by indices into
`footnotes_found`. -/
structure FootnoteRef where
  id : Nat
  is_used : Bool
  num : Nat
  contents : Buf
deriving Repr, DecidableEq

/-- `enum hoedown_autolink`. -/
inductive AutolinkType | none | normal | email
deriving Repr, DecidableEq

/-- `enum markdown_char_t`: what the 256-entry active-character table
stores per byte. -/
inductive MDChar
  | none | emphasis | codespan | linebreak | link | langle | escape
  | entity | autolinkUrl | autolinkEmail | autolinkWww | superscript
  | quote
deriving Repr, DecidableEq

/-- The extension bitmask, one `Bool` per `HOEDOWN_EXT_*` flag. -/
structure ExtFlags where
  tables : Bool := false
  fencedCode : Bool := false
  footnotes : Bool := false
  autolink : Bool := false
  strikethrough : Bool := false
  highlight : Bool := false
  underline : Bool := false
  quoteExt : Bool := false
  superscript : Bool := false
  spaceHeaders : Bool := false
  noIntraEmphasis : Bool := false
  laxSpacing : Bool := false
  disableIndentedCode : Bool := false
deriving Repr, DecidableEq

/-- The renderer callback set (`hoedown_renderer`).  Callbacks take the
current output buffer and return the new one; `int`-returning callbacks
also return a `Bool` (the truthy/falsy render indicator).  `opaque` is
user data invisible to the parser and is dropped. -/
structure Renderer where
  blockcode : Option (Buf → Buf → Option Buf → Buf) := none
  blockquote : Option (Buf → Buf → Buf) := none
  blockhtml : Option (Buf → Buf → Buf) := none
  header : Option (Buf → Buf → Nat → Buf) := none
  hrule : Option (Buf → Buf) := none
  list : Option (Buf → Buf → Nat → Buf) := none
  listitem : Option (Buf → Buf → Nat → Buf) := none
  paragraph : Option (Buf → Buf → Buf) := none
  table : Option (Buf → Buf → Buf → Buf) := none
  table_row : Option (Buf → Buf → Buf) := none
  table_cell : Option (Buf → Buf → Nat → Buf) := none
  footnotes : Option (Buf → Buf → Buf) := none
  footnote_def : Option (Buf → Buf → Nat → Buf) := none
  autolink : Option (Buf → Buf → AutolinkType → Buf × Bool) := none
  codespan : Option (Buf → Option Buf → Buf × Bool) := none
  double_emphasis : Option (Buf → Buf → Buf × Bool) := none
  emphasis : Option (Buf → Buf → Buf × Bool) := none
  underline : Option (Buf → Buf → Buf × Bool) := none
  highlight : Option (Buf → Buf → Buf × Bool) := none
  quote : Option (Buf → Option Buf → Buf × Bool) := none
  image : Option (Buf → Option Buf → Option Buf → Option Buf → Buf × Bool) := none
  linebreak : Option (Buf → Buf × Bool) := none
  link : Option (Buf → Option Buf → Option Buf → Option Buf → Buf × Bool) := none
  triple_emphasis : Option (Buf → Buf → Buf × Bool) := none
  strikethrough : Option (Buf → Buf → Buf × Bool) := none
  superscript : Option (Buf → Buf → Buf × Bool) := none
  footnote_ref : Option (Buf → Nat → Buf × Bool) := none
  raw_html_tag : Option (Buf → Buf → Buf × Bool) := none
  entity : Option (Buf → Buf → Buf) := none
  normal_text : Option (Buf → Buf → Buf) := none
  doc_header : Option (Buf → Buf) := none
  doc_footer : Option (Buf → Buf) := none

/-- Opaque autolink scanner (`hoedown_autolink__www` and friends,
excluded collaborators): given the base buffer, the absolute position
of the trigger byte, the number of already-emitted bytes before it and
the remaining size, returns `(link_len, rewind, link)`; `link_len = 0`
means no match. -/
abbrev Scanner := Buf → Nat → Nat → Nat → Nat × Nat × Buf

/-- The immutable part of `struct hoedown_markdown`: callbacks, flags,
active-character table, reference table and the external scanners. -/
structure MDConfig where
  rndr : Renderer
  ext : ExtFlags := {}
  maxNesting : Nat := 16
  active : Nat → MDChar := fun _ => .none
  refs : RefTable := emptyRefs
  scanWWW : Scanner := fun _ _ _ _ => (0, 0, [])
  scanURL : Scanner := fun _ _ _ _ => (0, 0, [])
  scanEmail : Scanner := fun _ _ _ _ => (0, 0, [])
  findBlockTag : Buf → Option Buf := fun _ => Option.none

/-- The mutable part of `struct hoedown_markdown` during pass 2: the
two pool tops (`work_bufs[BLOCK].size`, `work_bufs[SPAN].size`), the
`in_link_body` flag and the footnote lists.  `maxSeen` is ghost
instrumentation: the largest combined pool depth reached so far. -/
structure PState where
  spanSize : Nat := 0
  blockSize : Nat := 0
  inLinkBody : Bool := false
  fnFound : List FootnoteRef := []
  fnUsed : List Nat := []
  maxSeen : Nat := 0
deriving Repr

/-- `newbuf(md, BUFFER_SPAN)`: the pool hands out an empty buffer and
its top moves up (both branches of the C function increment `size`). -/
def newbufSpan (s : PState) : PState :=
  { s with spanSize := s.spanSize + 1,
           maxSeen := max s.maxSeen (s.spanSize + 1 + s.blockSize) }

/-- `newbuf(md, BUFFER_BLOCK)`. -/
def newbufBlock (s : PState) : PState :=
  { s with blockSize := s.blockSize + 1,
           maxSeen := max s.maxSeen (s.spanSize + s.blockSize + 1) }

/-- `popbuf(md, BUFFER_SPAN)`. -/
def popbufSpan (s : PState) : PState := { s with spanSize := s.spanSize - 1 }

/-- `popbuf(md, BUFFER_BLOCK)`. -/
def popbufBlock (s : PState) : PState := { s with blockSize := s.blockSize - 1 }

/-- The byte view `{ data + off, len }` of a `hoedown_buffer`. -/
def slice (d : Buf) (off len : Nat) : Buf := (d.drop off).take len

/-- The forward scan, structurally recursive on the remaining gap. -/
def firstIdxGo (p : Nat → Bool) (stop : Nat) : Nat → Nat → Nat
  | _, 0 => stop
  | i, gas + 1 =>
    if i < stop then (if p i then i else firstIdxGo p stop (i + 1) gas)
    else stop

/-- Forward scan `while (i < stop && ¬ p i) i++`: first index in
`[i, stop)` satisfying `p`, else `stop`. -/
def firstIdx (p : Nat → Bool) (i stop : Nat) : Nat :=
  firstIdxGo p stop i (stop - i)

/-- Backward scan `while (e > lo && p (e-1)) e--`. -/
def shrinkIdx (p : Nat → Bool) (lo : Nat) : Nat → Nat
  | 0 => 0
  | e + 1 =>
    if lo < e + 1 then (if p e then shrinkIdx p lo e else e + 1) else e + 1

/-- Backward scan `while (e > lo && p e) e--` (tests at `e` itself,
as the title trimming in `char_link` does). -/
def shrinkIdxAt (p : Nat → Bool) (lo : Nat) : Nat → Nat
  | 0 => 0
  | e + 1 =>
    if lo < e + 1 then (if p (e + 1) then shrinkIdxAt p lo e else e + 1)
    else e + 1

/-- `while (ob->size && ob->data[ob->size - 1] == ' ') ob->size--`. -/
def trimSpacesEnd (ob : Buf) : Buf :=
  (ob.reverse.dropWhile (fun c => c == 32)).reverse

theorem le_firstIdxGo (p : Nat → Bool) (stop : Nat) :
    ∀ (gas i : Nat), i ≤ stop → i ≤ firstIdxGo p stop i gas
  | 0, i => by intro h; simp only [firstIdxGo]; omega
  | gas + 1, i => by
    intro h
    simp only [firstIdxGo]
    split
    · split
      · exact Nat.le_refl _
      · rename_i hlt _
        have := le_firstIdxGo p stop gas (i + 1) hlt
        omega
    · omega

theorem le_firstIdx (p : Nat → Bool) (i stop : Nat) (h : i ≤ stop) :
    i ≤ firstIdx p i stop :=
  le_firstIdxGo p stop (stop - i) i h

/-- The copying loop of `unscape_text`, structurally recursive on a gas
that each iteration (which advances by at least two bytes) decrements
once, so any gas above half the length never runs out. -/
def unscapeGo (src : Buf) : Nat → Nat → Buf
  | _, 0 => []
  | i, gas + 1 =>
    if i < src.length then
      let org := firstIdx (fun j => byteAt src j == 92) i src.length
      let out := slice src i (org - i)
      if org + 1 ≥ src.length then out
      else out ++ [byteAt src (org + 1)] ++ unscapeGo src (org + 2) gas
    else []

/-- `unscape_text`: copy `src` dropping each backslash and emitting the
byte after it verbatim; a trailing lone backslash is dropped. -/
def unscape_text (src : Buf) (i : Nat) : Buf :=
  unscapeGo src i (src.length + 1)

/-! ## Inline parsing: non-recursive handlers -/

/-- `escape_chars`: `\`+backtick+`*_{}[]()#+-.!:|&<>^~`. -/
def escape_chars : Buf :=
  [92, 96, 42, 95, 123, 125, 91, 93, 40, 41, 35, 43, 45, 46, 33, 58,
   124, 38, 60, 62, 94, 126]

/-- `strchr(escape_chars, c) != NULL`: note that C `strchr` also finds
the terminating NUL, so byte 0 counts as present. -/
def strchrFound (cs : Buf) (c : Nat) : Bool := c == 0 || cs.contains c

/-- `char_escape`.  Returns `(consumed, ob, state)`. -/
def char_escape (cfg : MDConfig) (d : Buf) (pos _offset size : Nat)
    (ob : Buf) (s : PState) : Nat × Buf × PState :=
  if size > 1 then
    if !strchrFound escape_chars (byteAt d (pos + 1)) then (0, ob, s)
    else
      match cfg.rndr.normal_text with
      | some nt => (2, nt ob [byteAt d (pos + 1)], s)
      | none => (2, ob ++ [byteAt d (pos + 1)], s)
  else if size = 1 then (2, ob ++ [byteAt d pos], s)
  else (2, ob, s)

/-- `char_entity`. -/
def char_entity (cfg : MDConfig) (d : Buf) (pos _offset size : Nat)
    (ob : Buf) (s : PState) : Nat × Buf × PState :=
  let e1 : Nat := if 1 < size ∧ byteAt d (pos + 1) == 35 then 2 else 1
  let e2 := firstIdx (fun j => !isalnum (byteAt d (pos + j))) e1 size
  if e2 < size ∧ byteAt d (pos + e2) == 59 then
    let e3 := e2 + 1
    match cfg.rndr.entity with
    | some en => (e3, en ob (slice d pos e3), s)
    | none => (e3, ob ++ slice d pos e3, s)
  else (0, ob, s)

/-- `char_linebreak`: `\n` preceded by two spaces trims the trailing
spaces from the output *before* asking the callback; the trim is not
undone when the callback declines. -/
def char_linebreak (cfg : MDConfig) (d : Buf) (pos offset _size : Nat)
    (ob : Buf) (s : PState) : Nat × Buf × PState :=
  if offset < 2 ∨ byteAt d (pos - 1) ≠ 32 ∨ byteAt d (pos - 2) ≠ 32 then
    (0, ob, s)
  else
    let ob := trimSpacesEnd ob
    match cfg.rndr.linebreak with
    | some lb =>
        let lr := lb ob
        (if lr.2 then 1 else 0, lr.1, s)
    | none => (0, ob, s)

/-- The `(end, i)` state of the closing-delimiter scan shared by
`char_codespan` and `char_quote`:
`for (end = nb; end < size && i < nb; end++) { if (data[end] == c) i++; else i = 0; }`. -/
def delimCloseScanGo (d : Buf) (pos size c nb : Nat) : Nat → Nat → Nat → Nat × Nat
  | cnt, e, 0 => (e, cnt)
  | cnt, e, gas + 1 =>
    if e < size ∧ cnt < nb then
      if byteAt d (pos + e) == c then delimCloseScanGo d pos size c nb (cnt + 1) (e + 1) gas
      else delimCloseScanGo d pos size c nb 0 (e + 1) gas
    else (e, cnt)

def delimCloseScan (d : Buf) (pos size c nb : Nat) (cnt e : Nat) : Nat × Nat :=
  delimCloseScanGo d pos size c nb cnt e (size + 1)

/-- `char_codespan`: opening run of `nb` backticks, closed at the first
`nb` consecutive backticks; all outer spaces are trimmed from the
content; an all-space (or empty) content is passed as NULL. -/
def char_codespan (cfg : MDConfig) (d : Buf) (pos _offset size : Nat)
    (ob : Buf) (s : PState) : Nat × Buf × PState :=
  let nb := firstIdx (fun j => byteAt d (pos + j) != 96) 0 size
  let ei := delimCloseScan d pos size 96 nb 0 nb
  let e := ei.1
  let i := ei.2
  if i < nb ∧ e ≥ size then (0, ob, s)
  else
    let f_begin := firstIdx (fun j => byteAt d (pos + j) != 32) nb e
    let f_end := shrinkIdx (fun j => byteAt d (pos + j) == 32) nb (e - nb)
    if f_begin < f_end then
      match cfg.rndr.codespan with
      | some cs =>
          let cr := cs ob (some (slice d (pos + f_begin) (f_end - f_begin)))
          (if cr.2 then e else 0, cr.1, s)
      | none => (0, ob, s)
    else
      match cfg.rndr.codespan with
      | some cs =>
          let cr := cs ob Option.none
          (if cr.2 then e else 0, cr.1, s)
      | none => (0, ob, s)

/-- `char_quote`: `"`-delimited twin of `char_codespan`. -/
def char_quote (cfg : MDConfig) (d : Buf) (pos _offset size : Nat)
    (ob : Buf) (s : PState) : Nat × Buf × PState :=
  let nq := firstIdx (fun j => byteAt d (pos + j) != 34) 0 size
  let ei := delimCloseScan d pos size 34 nq 0 nq
  let e := ei.1
  let i := ei.2
  if i < nq ∧ e ≥ size then (0, ob, s)
  else
    let f_begin := firstIdx (fun j => byteAt d (pos + j) != 32) nq e
    let f_end := shrinkIdx (fun j => byteAt d (pos + j) == 32) nq (e - nq)
    if f_begin < f_end then
      match cfg.rndr.quote with
      | some q =>
          let cr := q ob (some (slice d (pos + f_begin) (f_end - f_begin)))
          (if cr.2 then e else 0, cr.1, s)
      | none => (0, ob, s)
    else
      match cfg.rndr.quote with
      | some q =>
          let cr := q ob Option.none
          (if cr.2 then e else 0, cr.1, s)
      | none => (0, ob, s)

/-- The scanning loop of `is_mail_autolink`: `[-@._a-zA-Z0-9]+` with
exactly one `@`, ended by `>`. -/
def mailScanGo (d : Buf) (pos size : Nat) : Nat → Nat → Nat → Nat
  | _, _, 0 => 0
  | i, nb, gas + 1 =>
    if i < size then
      let c := byteAt d (pos + i)
      if isalnum c then mailScanGo d pos size (i + 1) nb gas
      else if c == 64 then mailScanGo d pos size (i + 1) (nb + 1) gas
      else if c == 45 || c == 46 || c == 95 then mailScanGo d pos size (i + 1) nb gas
      else if c == 62 then (if nb == 1 then i + 1 else 0)
      else 0
    else 0

def mailScan (d : Buf) (pos size i nb : Nat) : Nat :=
  mailScanGo d pos size i nb (size + 1)

/-- `is_mail_autolink`. -/
def is_mail_autolink (d : Buf) (pos size : Nat) : Nat :=
  mailScan d pos size 0 0

/-- The autolink-completion loop of `tag_length`
(`\\` skips two bytes; `>`/`'`/`"`/space/newline stop). -/
def tagAutolinkEndGo (d : Buf) (pos size : Nat) : Nat → Nat → Nat
  | i, 0 => i
  | i, gas + 1 =>
    if i < size then
      let c := byteAt d (pos + i)
      if c == 92 then tagAutolinkEndGo d pos size (i + 2) gas
      else if c == 62 || c == 39 || c == 34 || c == 32 || c == 10 then i
      else tagAutolinkEndGo d pos size (i + 1) gas
    else i

def tagAutolinkEnd (d : Buf) (pos size i : Nat) : Nat :=
  tagAutolinkEndGo d pos size i (size + 1)

/-- `tag_length`: length of an angle-bracket tag or autolink, plus the
detected autolink kind. -/
def tag_length (d : Buf) (pos size : Nat) : Nat × AutolinkType :=
  if size < 3 then (0, .none)
  else if byteAt d pos != 60 then (0, .none)
  else
    let i := if byteAt d (pos + 1) == 47 then 2 else 1
    if !isalnum (byteAt d (pos + i)) then (0, .none)
    else
      let i := firstIdx
        (fun j => !(isalnum (byteAt d (pos + j)) || byteAt d (pos + j) == 46 ||
                    byteAt d (pos + j) == 43 || byteAt d (pos + j) == 45)) i size
      let mail : Nat :=
        if i > 1 ∧ byteAt d (pos + i) == 64 then
          is_mail_autolink d (pos + i) (size - i)
        else 0
      if mail ≠ 0 then (i + mail, .email)
      else
        let p := if i > 2 ∧ byteAt d (pos + i) == 58 then
                   (i + 1, AutolinkType.normal)
                 else (i, AutolinkType.none)
        let i := p.1
        let alk := p.2
        if i ≥ size then (0, .none)
        else if alk ≠ .none then
          let j := i
          let i2 := tagAutolinkEnd d pos size i
          if i2 ≥ size then (0, alk)
          else if i2 > j ∧ byteAt d (pos + i2) == 62 then (i2 + 1, alk)
          else
            let i3 := firstIdx (fun k => byteAt d (pos + k) == 62) i2 size
            if i3 ≥ size then (0, .none) else (i3 + 1, .none)
        else
          let i3 := firstIdx (fun k => byteAt d (pos + k) == 62) i size
          if i3 ≥ size then (0, .none) else (i3 + 1, .none)

/-- `char_langle_tag`: HTML tag or `<...>` autolink. -/
def char_langle_tag (cfg : MDConfig) (d : Buf) (pos _offset size : Nat)
    (ob : Buf) (s : PState) : Nat × Buf × PState :=
  let t := tag_length d pos size
  let e := t.1
  let altype := t.2
  if e > 2 then
    match cfg.rndr.autolink with
    | some al =>
        if altype ≠ .none then
          let s := newbufSpan s
          let u_link := unscape_text (slice d (pos + 1) (e - 2)) 0
          let ar := al ob u_link altype
          let s := popbufSpan s
          (if ar.2 then e else 0, ar.1, s)
        else
          match cfg.rndr.raw_html_tag with
          | some rh =>
              let hr := rh ob (slice d pos e)
              (if hr.2 then e else 0, hr.1, s)
          | none => (0, ob, s)
    | none =>
        match cfg.rndr.raw_html_tag with
        | some rh =>
            let hr := rh ob (slice d pos e)
            (if hr.2 then e else 0, hr.1, s)
        | none => (0, ob, s)
  else (0, ob, s)

/-- `char_autolink_www` (scanner opaque).  The `link` work buffer is
acquired before the scan and released after; the `rewind` bytes are
removed from the output. -/
def char_autolink_www (cfg : MDConfig) (d : Buf) (pos offset size : Nat)
    (ob : Buf) (s : PState) : Nat × Buf × PState :=
  match cfg.rndr.link with
  | none => (0, ob, s)
  | some lk =>
    if s.inLinkBody then (0, ob, s)
    else
      let s := newbufSpan s
      let sc := cfg.scanWWW d pos offset size
      let link_len := sc.1
      let rewind := sc.2.1
      let lnk := sc.2.2
      if link_len > 0 then
        let s := newbufSpan s
        let link_url := [104, 116, 116, 112, 58, 47, 47] ++ lnk
        let ob := ob.take (ob.length - rewind)
        match cfg.rndr.normal_text with
        | some nt =>
            let s := newbufSpan s
            let link_text := nt [] lnk
            let lr := lk ob (some link_url) Option.none (some link_text)
            let s := popbufSpan s
            let s := popbufSpan s
            let s := popbufSpan s
            (link_len, lr.1, s)
        | none =>
            let lr := lk ob (some link_url) Option.none (some lnk)
            let s := popbufSpan s
            let s := popbufSpan s
            (link_len, lr.1, s)
      else
        (link_len, ob, popbufSpan s)

/-- `char_autolink_email`. -/
def char_autolink_email (cfg : MDConfig) (d : Buf) (pos offset size : Nat)
    (ob : Buf) (s : PState) : Nat × Buf × PState :=
  match cfg.rndr.autolink with
  | none => (0, ob, s)
  | some al =>
    if s.inLinkBody then (0, ob, s)
    else
      let s := newbufSpan s
      let sc := cfg.scanEmail d pos offset size
      let link_len := sc.1
      let rewind := sc.2.1
      let lnk := sc.2.2
      if link_len > 0 then
        let ob := ob.take (ob.length - rewind)
        let ar := al ob lnk .email
        (link_len, ar.1, popbufSpan s)
      else (link_len, ob, popbufSpan s)

/-- `char_autolink_url`. -/
def char_autolink_url (cfg : MDConfig) (d : Buf) (pos offset size : Nat)
    (ob : Buf) (s : PState) : Nat × Buf × PState :=
  match cfg.rndr.autolink with
  | none => (0, ob, s)
  | some al =>
    if s.inLinkBody then (0, ob, s)
    else
      let s := newbufSpan s
      let sc := cfg.scanURL d pos offset size
      let link_len := sc.1
      let rewind := sc.2.1
      let lnk := sc.2.2
      if link_len > 0 then
        let ob := ob.take (ob.length - rewind)
        let ar := al ob lnk .normal
        (link_len, ar.1, popbufSpan s)
      else (link_len, ob, popbufSpan s)

/-! ## `find_emph_char` and its scanning loops -/

/-- The code-span sub-scan of `find_emph_char`: looks for `span_nb`
consecutive backticks, recording in `tmp_i` the first occurrence of the
emphasis byte `c`.  Returns `(i, tmp_i)`. -/
def emphBacktickScanGo (d : Buf) (pos size c span_nb : Nat) :
    Nat → Nat → Nat → Nat → Nat × Nat
  | _, tmp_i, i, 0 => (i, tmp_i)
  | bt, tmp_i, i, gas + 1 =>
    if i < size ∧ bt < span_nb then
      let t := if tmp_i == 0 ∧ byteAt d (pos + i) == c then i else tmp_i
      let bt2 := if byteAt d (pos + i) == 96 then bt + 1 else 0
      emphBacktickScanGo d pos size c span_nb bt2 t (i + 1) gas
    else (i, tmp_i)

def emphBacktickScan (d : Buf) (pos size c span_nb : Nat)
    (bt tmp_i i : Nat) : Nat × Nat :=
  emphBacktickScanGo d pos size c span_nb bt tmp_i i (size + 1)

/-- The bracketed sub-scans of `find_emph_char`: advance to `stopByte`,
recording in `tmp_i` the first occurrence of `c`.  Returns `(i, tmp_i)`
with `i` at the stop byte or at `size`. -/
def emphScanRecordGo (d : Buf) (pos size c stopByte : Nat) :
    Nat → Nat → Nat → Nat × Nat
  | tmp_i, i, 0 => (i, tmp_i)
  | tmp_i, i, gas + 1 =>
    if i < size then
      if byteAt d (pos + i) == stopByte then (i, tmp_i)
      else emphScanRecordGo d pos size c stopByte
        (if tmp_i == 0 ∧ byteAt d (pos + i) == c then i else tmp_i) (i + 1) gas
    else (i, tmp_i)

def emphScanRecord (d : Buf) (pos size c stopByte : Nat)
    (tmp_i i : Nat) : Nat × Nat :=
  emphScanRecordGo d pos size c stopByte tmp_i i (size + 1)

/-- `find_emph_char`: next closing candidate for emphasis byte `c`,
skipping escaped brackets, code spans and link-like constructs.  `fuel`
bounds the outer `while`; the initial call uses `i = 1` as the C code
does. -/
def find_emph_char (d : Buf) (pos size c : Nat) (fuel i : Nat) : Nat :=
  match fuel with
  | 0 => 0
  | fuel + 1 =>
    if i ≥ size then 0
    else
      let i := firstIdx
        (fun j => byteAt d (pos + j) == c || byteAt d (pos + j) == 91) i size
      if i == size then 0
      else if byteAt d (pos + i) == c then i
      else if i ≠ 0 ∧ byteAt d (pos + i - 1) == 92 then
        find_emph_char d pos size c fuel (i + 1)
      else if byteAt d (pos + i) == 96 then
        -- dead in practice: the scan only stops at `c` or `[`
        let i2 := firstIdx (fun j => byteAt d (pos + j) != 96) i size
        let span_nb := i2 - i
        if i2 ≥ size then 0
        else
          let (i3, tmp_i) := emphBacktickScan d pos size c span_nb 0 0 i2
          if i3 ≥ size then tmp_i
          else find_emph_char d pos size c fuel i3
      else if byteAt d (pos + i) == 91 then
        let (i2, tmp_i) := emphScanRecord d pos size c 93 0 (i + 1)
        let i3 := i2 + 1
        let i4 := firstIdx
          (fun j => !(byteAt d (pos + j) == 32 || byteAt d (pos + j) == 10)) i3 size
        if i4 ≥ size then tmp_i
        else
          let cb := byteAt d (pos + i4)
          if cb == 91 || cb == 40 then
            let cc : Nat := if cb == 91 then 93 else 41
            let (i5, tmp_i) := emphScanRecord d pos size c cc tmp_i (i4 + 1)
            if i5 ≥ size then tmp_i
            else find_emph_char d pos size c fuel (i5 + 1)
          else
            if tmp_i ≠ 0 then tmp_i
            else find_emph_char d pos size c fuel i4
      else find_emph_char d pos size c fuel i

/-- The active-character table set up by `hoedown_markdown_new`: which
bytes trigger which inline handler, given the available callbacks and
extensions.  (The assigned byte sets are pairwise disjoint, so the
order of the C assignments does not matter.) -/
def activeCharsOf (rndr : Renderer) (ext : ExtFlags) : Nat → MDChar :=
  fun c =>
    if (rndr.emphasis.isSome || rndr.double_emphasis.isSome ||
        rndr.triple_emphasis.isSome) ∧
        (c = 42 ∨ c = 95 ∨ (ext.strikethrough ∧ c = 126) ∨
         (ext.highlight ∧ c = 61)) then .emphasis
    else if rndr.codespan.isSome ∧ c = 96 then .codespan
    else if rndr.linebreak.isSome ∧ c = 10 then .linebreak
    else if (rndr.image.isSome || rndr.link.isSome) ∧ c = 91 then .link
    else if c = 60 then .langle
    else if c = 92 then .escape
    else if c = 38 then .entity
    else if ext.autolink ∧ c = 58 then .autolinkUrl
    else if ext.autolink ∧ c = 64 then .autolinkEmail
    else if ext.autolink ∧ c = 119 then .autolinkWww
    else if ext.superscript ∧ c = 94 then .superscript
    else if ext.quoteExt ∧ c = 34 then .quote
    else .none

/-! ## `char_link` scanning loops (pure) -/

/-- The bracket-matching loop of `char_link`
(`for (level = 1; i < size; i++) ...`): returns the position of the
closing `]` (or `size`) and whether a newline was seen. -/
def linkBracketScanGo (d : Buf) (pos size : Nat) :
    Nat → Nat → Bool → Nat → Nat × Bool
  | i, _, hasNl, 0 => (i, hasNl)
  | i, level, hasNl, gas + 1 =>
    if i < size then
      if byteAt d (pos + i) == 10 then linkBracketScanGo d pos size (i + 1) level true gas
      else if byteAt d (pos + i - 1) == 92 then
        linkBracketScanGo d pos size (i + 1) level hasNl gas
      else if byteAt d (pos + i) == 91 then
        linkBracketScanGo d pos size (i + 1) (level + 1) hasNl gas
      else if byteAt d (pos + i) == 93 then
        if level ≤ 1 then (i, hasNl)
        else linkBracketScanGo d pos size (i + 1) (level - 1) hasNl gas
      else linkBracketScanGo d pos size (i + 1) level hasNl gas
    else (i, hasNl)

def linkBracketScan (d : Buf) (pos size : Nat) (i level : Nat)
    (hasNl : Bool) : Nat × Bool :=
  linkBracketScanGo d pos size i level hasNl (size + 1)

/-- The inline-destination loop of `char_link`: scan for the closing
`)` (tracking nested parentheses and escapes) or a whitespace-preceded
quote. -/
def linkInlineEndGo (d : Buf) (pos size : Nat) : Nat → Nat → Nat → Nat
  | i, _, 0 => i
  | i, nb_p, gas + 1 =>
    if i < size then
      let c := byteAt d (pos + i)
      if c == 92 then linkInlineEndGo d pos size (i + 2) nb_p gas
      else if c == 40 ∧ i ≠ 0 then linkInlineEndGo d pos size (i + 1) (nb_p + 1) gas
      else if c == 41 then
        (if nb_p == 0 then i else linkInlineEndGo d pos size (i + 1) (nb_p - 1) gas)
      else if i ≥ 1 ∧ isspace (byteAt d (pos + i - 1)) ∧ (c == 39 ∨ c == 34) then i
      else linkInlineEndGo d pos size (i + 1) nb_p gas
    else i

def linkInlineEnd (d : Buf) (pos size : Nat) (i nb_p : Nat) : Nat :=
  linkInlineEndGo d pos size i nb_p (size + 1)

/-- The title loop of `char_link`: scan for the `)` that closes the
destination once the quoted title has ended. -/
def linkTitleScanGo (d : Buf) (pos size qtype : Nat) :
    Nat → Bool → Nat → Nat
  | i, _, 0 => i
  | i, in_title, gas + 1 =>
    if i < size then
      let c := byteAt d (pos + i)
      if c == 92 then linkTitleScanGo d pos size qtype (i + 2) in_title gas
      else if c == qtype then linkTitleScanGo d pos size qtype (i + 1) false gas
      else if c == 41 ∧ !in_title then i
      else linkTitleScanGo d pos size qtype (i + 1) in_title gas
    else i

def linkTitleScan (d : Buf) (pos size qtype : Nat) (i : Nat)
    (in_title : Bool) : Nat :=
  linkTitleScanGo d pos size qtype i in_title (size + 1)

/-- The id normalisation of `char_link` for bracketed text containing
newlines: newlines collapse to a single space. -/
def nlToSpaceId (d : Buf) (pos txt_e : Nat) : Buf :=
  (List.range' 1 (txt_e - 1)).foldl
    (fun b j =>
      if byteAt d (pos + j) ≠ 10 then b ++ [byteAt d (pos + j)]
      else if byteAt d (pos + j - 1) ≠ 32 then b ++ [32]
      else b) []

/-- `find_footnote_ref`, returning the index of the first entry whose
stored hash matches (the C function returns the aliased pointer). -/
def find_footnote_idx (l : List FootnoteRef) (name : Buf) : Option Nat :=
  l.findIdx? (fun r => r.id == hash_link_ref name)

/-- Placeholder entry for (unreachable) out-of-range footnote reads. -/
def fnDefault : FootnoteRef := { id := 0, is_used := false, num := 0, contents := [] }

/-- The footnote branch of `char_link` (`[^id]`): mark the footnote
used on first reference (assigning the next ordinal) and invoke
`footnote_ref`; the SPAN top is reset to `org_work_size`. -/
def charLinkFootnote (cfg : MDConfig) (d : Buf) (pos txt_e org_work_size : Nat)
    (ob : Buf) (s : PState) : Nat × Buf × PState :=
  if txt_e < 3 then (0, ob, { s with spanSize := org_work_size })
  else
    let idb := slice d (pos + 2) (txt_e - 2)
    match find_footnote_idx s.fnFound idb with
    | some idx =>
        let frOld := s.fnFound.getD idx fnDefault
        let s :=
          if !frOld.is_used then
            { s with fnUsed := s.fnUsed ++ [idx],
                     fnFound := s.fnFound.set idx
                       { frOld with is_used := true,
                                    num := s.fnUsed.length + 1 } }
          else s
        let fr := s.fnFound.getD idx fnDefault
        let res : Buf × Bool :=
          match cfg.rndr.footnote_ref with
          | some fnr => fnr ob fr.num
          | none => (ob, false)
        (if res.2 then txt_e + 1 else 0, res.1,
         { s with spanSize := org_work_size })
    | none => (0, ob, { s with spanSize := org_work_size })

/-! ## The inline parser (mutually recursive part) -/

/-- The "remove whitespace at the end of the link / remove optional
angle brackets" step of `char_link`, a pure index computation returning
the adjusted `(link_b, link_e)`. -/
def charLinkTrim (d : Buf) (pos link_b link_e : Nat) : Nat × Nat :=
  let link_e := shrinkIdx (fun j => isspace (byteAt d (pos + j))) link_b link_e
  let link_b2 := if byteAt d (pos + link_b) == 60 then link_b + 1 else link_b
  let link_e2 := if byteAt d (pos + link_e - 1) == 62 then link_e - 1 else link_e
  (link_b2, link_e2)

set_option maxHeartbeats 1600000 in
mutual

/-- `parse_inline`: scan `d[start, start+size)`, emitting runs of
inactive bytes through `normal_text` and dispatching active bytes to
their handlers.  Returns immediately when the combined pool depth
exceeds `max_nesting`. -/
def parse_inline (cfg : MDConfig) (fuel : Nat) (d : Buf) (start size : Nat)
    (ob : Buf) (s : PState) : Buf × PState :=
  match fuel with
  | 0 => (ob, s)
  | fuel + 1 =>
    if s.spanSize + s.blockSize > cfg.maxNesting then (ob, s)
    else parseInlineLoop cfg fuel d start size 0 0 ob s
termination_by structural fuel

/-- The main loop of `parse_inline`; `i` is where the pending inactive
run starts and `scanFrom` where the active-character scan resumes. -/
def parseInlineLoop (cfg : MDConfig) (fuel : Nat) (d : Buf)
    (start size i scanFrom : Nat) (ob : Buf) (s : PState) : Buf × PState :=
  match fuel with
  | 0 => (ob, s)
  | fuel + 1 =>
    if i < size then
      let e := firstIdx
        (fun j => !decide (cfg.active (byteAt d (start + j)) = MDChar.none))
        scanFrom size
      let ob := match cfg.rndr.normal_text with
        | some nt => nt ob (slice d (start + i) (e - i))
        | none => ob ++ slice d (start + i) (e - i)
      if e ≥ size then (ob, s)
      else
        let r := dispatchChar cfg fuel (cfg.active (byteAt d (start + e)))
          d (start + e) e (size - e) ob s
        let consumed := r.1
        if consumed = 0 then parseInlineLoop cfg fuel d start size e (e + 1) r.2.1 r.2.2
        else parseInlineLoop cfg fuel d start size (e + consumed) (e + consumed) r.2.1 r.2.2
    else (ob, s)
termination_by structural fuel

/-- The `markdown_char_ptrs` function-pointer dispatch: map the active
class of the current byte to its handler. -/
def dispatchChar (cfg : MDConfig) (fuel : Nat) (a : MDChar) (d : Buf)
    (pos off size : Nat) (ob : Buf) (s : PState) : Nat × Buf × PState :=
  match fuel with
  | 0 => (0, ob, s)
  | fuel + 1 =>
    match a with
    | .none => (0, ob, s)
    | .emphasis => char_emphasis cfg fuel d pos off size ob s
    | .codespan => char_codespan cfg d pos off size ob s
    | .linebreak => char_linebreak cfg d pos off size ob s
    | .link => char_link cfg fuel d pos off size ob s
    | .langle => char_langle_tag cfg d pos off size ob s
    | .escape => char_escape cfg d pos off size ob s
    | .entity => char_entity cfg d pos off size ob s
    | .autolinkUrl => char_autolink_url cfg d pos off size ob s
    | .autolinkEmail => char_autolink_email cfg d pos off size ob s
    | .autolinkWww => char_autolink_www cfg d pos off size ob s
    | .superscript => char_superscript cfg fuel d pos off size ob s
    | .quote => char_quote cfg d pos off size ob s
termination_by structural fuel

/-- `char_emphasis`: dispatch on the length of the delimiter run. -/
def char_emphasis (cfg : MDConfig) (fuel : Nat) (d : Buf)
    (pos offset size : Nat) (ob : Buf) (s : PState) : Nat × Buf × PState :=
  match fuel with
  | 0 => (0, ob, s)
  | fuel + 1 =>
    let c := byteAt d pos
    if cfg.ext.noIntraEmphasis ∧ offset > 0 ∧ !isspace (byteAt d (pos - 1)) ∧
        byteAt d (pos - 1) ≠ 62 ∧ byteAt d (pos - 1) ≠ 40 then (0, ob, s)
    else if size > 2 ∧ byteAt d (pos + 1) != c then
      if c == 126 || c == 61 || isspace (byteAt d (pos + 1)) then (0, ob, s)
      else
        let r := parse_emph1 cfg fuel d (pos + 1) (size - 1) c ob s
        (if r.1 = 0 then 0 else r.1 + 1, r.2.1, r.2.2)
    else if size > 3 ∧ byteAt d (pos + 1) == c ∧ byteAt d (pos + 2) != c then
      if isspace (byteAt d (pos + 2)) then (0, ob, s)
      else
        let r := parse_emph2 cfg fuel d (pos + 2) (size - 2) c ob s
        (if r.1 = 0 then 0 else r.1 + 2, r.2.1, r.2.2)
    else if size > 4 ∧ byteAt d (pos + 1) == c ∧ byteAt d (pos + 2) == c ∧
        byteAt d (pos + 3) != c then
      if c == 126 || c == 61 || isspace (byteAt d (pos + 3)) then (0, ob, s)
      else
        let r := parse_emph3 cfg fuel d (pos + 3) (size - 3) c ob s
        (if r.1 = 0 then 0 else r.1 + 3, r.2.1, r.2.2)
    else (0, ob, s)
termination_by structural fuel

/-- `parse_emph1`: single-delimiter emphasis (skipping one leading
symbol when delegated from `parse_emph3`). -/
def parse_emph1 (cfg : MDConfig) (fuel : Nat) (d : Buf) (pos size : Nat)
    (c : Nat) (ob : Buf) (s : PState) : Nat × Buf × PState :=
  match fuel with
  | 0 => (0, ob, s)
  | fuel + 1 =>
    let i0 : Nat :=
      if size > 1 ∧ byteAt d pos == c ∧ byteAt d (pos + 1) == c then 1 else 0
    parseEmph1Loop cfg fuel d pos size c i0 ob s

termination_by structural fuel

def parseEmph1Loop (cfg : MDConfig) (fuel : Nat) (d : Buf) (pos size : Nat)
    (c : Nat) (i : Nat) (ob : Buf) (s : PState) : Nat × Buf × PState :=
  match fuel with
  | 0 => (0, ob, s)
  | fuel + 1 =>
    if i < size then
      let len := find_emph_char d (pos + i) (size - i) c (2 * size + 2) 1
      if len = 0 then (0, ob, s)
      else
        let i := i + len
        if i ≥ size then (0, ob, s)
        else if byteAt d (pos + i) == c ∧ !isspace (byteAt d (pos + i - 1)) then
          if cfg.ext.noIntraEmphasis ∧ i + 1 < size ∧
              isalnum (byteAt d (pos + i + 1)) then
            parseEmph1Loop cfg fuel d pos size c i ob s
          else
            let s := newbufSpan s
            let pw := parse_inline cfg fuel d pos i [] s
            let cr : Buf × Bool :=
              if cfg.ext.underline ∧ c == 95 then
                match cfg.rndr.underline with
                | some u => u ob pw.1
                | none => (ob, false)
              else
                match cfg.rndr.emphasis with
                | some em => em ob pw.1
                | none => (ob, false)
            let s := popbufSpan pw.2
            (if cr.2 then i + 1 else 0, cr.1, s)
        else parseEmph1Loop cfg fuel d pos size c i ob s
    else (0, ob, s)
termination_by structural fuel

/-- `parse_emph2`: double-delimiter emphasis (also strikethrough and
highlight). -/
def parse_emph2 (cfg : MDConfig) (fuel : Nat) (d : Buf) (pos size : Nat)
    (c : Nat) (ob : Buf) (s : PState) : Nat × Buf × PState :=
  match fuel with
  | 0 => (0, ob, s)
  | fuel + 1 => parseEmph2Loop cfg fuel d pos size c 0 ob s

termination_by structural fuel

def parseEmph2Loop (cfg : MDConfig) (fuel : Nat) (d : Buf) (pos size : Nat)
    (c : Nat) (i : Nat) (ob : Buf) (s : PState) : Nat × Buf × PState :=
  match fuel with
  | 0 => (0, ob, s)
  | fuel + 1 =>
    if i < size then
      let len := find_emph_char d (pos + i) (size - i) c (2 * size + 2) 1
      if len = 0 then (0, ob, s)
      else
        let i := i + len
        if i + 1 < size ∧ byteAt d (pos + i) == c ∧ byteAt d (pos + i + 1) == c ∧
            i ≠ 0 ∧ !isspace (byteAt d (pos + i - 1)) then
          let s := newbufSpan s
          let pw := parse_inline cfg fuel d pos i [] s
          let cr : Buf × Bool :=
            if c == 126 then
              match cfg.rndr.strikethrough with
              | some st => st ob pw.1
              | none => (ob, false)
            else if c == 61 then
              match cfg.rndr.highlight with
              | some hl => hl ob pw.1
              | none => (ob, false)
            else
              match cfg.rndr.double_emphasis with
              | some de => de ob pw.1
              | none => (ob, false)
          let s := popbufSpan pw.2
          (if cr.2 then i + 2 else 0, cr.1, s)
        else parseEmph2Loop cfg fuel d pos size c (i + 1) ob s
    else (0, ob, s)
termination_by structural fuel

/-- `parse_emph3`: find the first closing delimiter and dispatch to
triple emphasis or delegate back to `parse_emph1`/`parse_emph2`. -/
def parse_emph3 (cfg : MDConfig) (fuel : Nat) (d : Buf) (pos size : Nat)
    (c : Nat) (ob : Buf) (s : PState) : Nat × Buf × PState :=
  match fuel with
  | 0 => (0, ob, s)
  | fuel + 1 => parseEmph3Loop cfg fuel d pos size c 0 ob s

termination_by structural fuel

def parseEmph3Loop (cfg : MDConfig) (fuel : Nat) (d : Buf) (pos size : Nat)
    (c : Nat) (i : Nat) (ob : Buf) (s : PState) : Nat × Buf × PState :=
  match fuel with
  | 0 => (0, ob, s)
  | fuel + 1 =>
    if i < size then
      let len := find_emph_char d (pos + i) (size - i) c (2 * size + 2) 1
      if len = 0 then (0, ob, s)
      else
        let i := i + len
        if byteAt d (pos + i) != c || isspace (byteAt d (pos + i - 1)) then
          parseEmph3Loop cfg fuel d pos size c i ob s
        else if i + 2 < size ∧ byteAt d (pos + i + 1) == c ∧
            byteAt d (pos + i + 2) == c ∧ cfg.rndr.triple_emphasis.isSome then
          let s := newbufSpan s
          let pw := parse_inline cfg fuel d pos i [] s
          let cr : Buf × Bool :=
            match cfg.rndr.triple_emphasis with
            | some te => te ob pw.1
            | none => (ob, false)
          let s := popbufSpan pw.2
          (if cr.2 then i + 3 else 0, cr.1, s)
        else if i + 1 < size ∧ byteAt d (pos + i + 1) == c then
          let r := parse_emph1 cfg fuel d (pos - 2) (size + 2) c ob s
          (if r.1 = 0 then 0 else r.1 - 2, r.2.1, r.2.2)
        else
          let r := parse_emph2 cfg fuel d (pos - 1) (size + 1) c ob s
          (if r.1 = 0 then 0 else r.1 - 1, r.2.1, r.2.2)
    else (0, ob, s)
termination_by structural fuel

/-- The shared tail of `char_link`: parse the display text (with
`in_link_body` set to 1 during the parse and to 0 after), unescape the
link, and invoke the image/link callback; the SPAN pool top is reset to
`org_work_size` on return. -/
def charLinkFinish (cfg : MDConfig) (fuel : Nat) (d : Buf)
    (pos txt_e : Nat) (is_img : Bool) (org_work_size : Nat) (i : Nat)
    (link title : Option Buf) (ob : Buf) (s : PState) : Nat × Buf × PState :=
  match fuel with
  | 0 => (0, ob, { s with spanSize := org_work_size })
  | fuel + 1 =>
    let cres : Option Buf × Buf × PState :=
      if txt_e > 1 then
        let s := newbufSpan s
        if is_img then (some (slice d (pos + 1) (txt_e - 1)), ob, s)
        else
          let s := { s with inLinkBody := true }
          let pw := parse_inline cfg fuel d (pos + 1) (txt_e - 1) [] s
          let s := { pw.2 with inLinkBody := false }
          (some pw.1, ob, s)
      else (Option.none, ob, s)
    let content := cres.1
    let ob := cres.2.1
    let s := cres.2.2
    let ures : Option Buf × PState :=
      match link with
      | some l => (some (unscape_text l 0), newbufSpan s)
      | none => (Option.none, s)
    let u_link := ures.1
    let s := ures.2
    let rres : Buf × Bool :=
      if is_img then
        let ob := if ob ≠ [] ∧ ob.getLast? == some 33 then ob.dropLast else ob
        match cfg.rndr.image with
        | some im => im ob u_link title content
        | none => (ob, false)
      else
        match cfg.rndr.link with
        | some lk => lk ob u_link title content
        | none => (ob, false)
    (if rres.2 then i else 0, rres.1, { s with spanSize := org_work_size })
termination_by structural fuel

/-- The "building escaped link and title" step shared by the inline
branch of `char_link`: allocate SPAN buffers for the non-empty link and
title slices, then hand off to `charLinkFinish`. -/
def charLinkBuild (cfg : MDConfig) (fuel : Nat) (d : Buf)
    (pos txt_e : Nat) (is_img : Bool) (org_work_size : Nat)
    (lk : Nat × Nat) (title_b title_e inext : Nat)
    (ob : Buf) (s : PState) : Nat × Buf × PState :=
  match fuel with
  | 0 => (0, ob, { s with spanSize := org_work_size })
  | fuel + 1 =>
    let lres : Option Buf × PState :=
      if lk.2 > lk.1 then
        (some (slice d (pos + lk.1) (lk.2 - lk.1)), newbufSpan s)
      else (Option.none, s)
    let tres : Option Buf × PState :=
      if title_e > title_b then
        (some (slice d (pos + title_b) (title_e - title_b)), newbufSpan lres.2)
      else (Option.none, lres.2)
    charLinkFinish cfg fuel d pos txt_e is_img org_work_size inext lres.1 tres.1 ob tres.2
termination_by structural fuel

/-- The inline-style branch of `char_link` (`[text](url "title")`),
entered at the `(`; `i` is its offset. -/
def charLinkInline (cfg : MDConfig) (fuel : Nat) (d : Buf)
    (pos size txt_e : Nat) (is_img : Bool) (org_work_size i : Nat)
    (ob : Buf) (s : PState) : Nat × Buf × PState :=
  match fuel with
  | 0 => (0, ob, { s with spanSize := org_work_size })
  | fuel + 1 =>
    let link_b := firstIdx (fun j => !isspace (byteAt d (pos + j))) (i + 1) size
    let iE := linkInlineEnd d pos size link_b 0
    if iE ≥ size then (0, ob, { s with spanSize := org_work_size })
    else
      if byteAt d (pos + iE) == 39 || byteAt d (pos + iE) == 34 then
        let qtype := byteAt d (pos + iE)
        let i2 := linkTitleScan d pos size qtype (iE + 1) true
        if i2 ≥ size then (0, ob, { s with spanSize := org_work_size })
        else
          let title_e0 := shrinkIdxAt
            (fun j => isspace (byteAt d (pos + j))) (iE + 1) (i2 - 1)
          if byteAt d (pos + title_e0) ≠ 39 ∧ byteAt d (pos + title_e0) ≠ 34 then
            charLinkBuild cfg fuel d pos txt_e is_img org_work_size
              (charLinkTrim d pos link_b i2) 0 0 (i2 + 1) ob s
          else
            charLinkBuild cfg fuel d pos txt_e is_img org_work_size
              (charLinkTrim d pos link_b iE) (iE + 1) title_e0 (i2 + 1) ob s
      else
        charLinkBuild cfg fuel d pos txt_e is_img org_work_size
          (charLinkTrim d pos link_b iE) 0 0 (iE + 1) ob s
termination_by structural fuel

/-- The reference-style branch of `char_link` (`[text][id]`), entered
at the second `[` at offset `i`. -/
def charLinkRef (cfg : MDConfig) (fuel : Nat) (d : Buf)
    (pos size txt_e : Nat) (is_img : Bool) (org_work_size : Nat)
    (text_has_nl : Bool) (i : Nat) (ob : Buf) (s : PState) :
    Nat × Buf × PState :=
  match fuel with
  | 0 => (0, ob, { s with spanSize := org_work_size })
  | fuel + 1 =>
    let link_b := i + 1
    let iC := firstIdx (fun j => byteAt d (pos + j) == 93) (i + 1) size
    if iC ≥ size then (0, ob, { s with spanSize := org_work_size })
    else
      let link_e := iC
      let ires : Buf × PState :=
        if link_b == link_e then
          if text_has_nl then (nlToSpaceId d pos txt_e, newbufSpan s)
          else (slice d (pos + 1) (txt_e - 1), s)
        else (slice d (pos + link_b) (link_e - link_b), s)
      match find_link_ref cfg.refs ires.1 with
      | none => (0, ob, { ires.2 with spanSize := org_work_size })
      | some lr => charLinkFinish cfg fuel d pos txt_e is_img org_work_size (iC + 1) (some lr.link) lr.title ob ires.2
termination_by structural fuel

/-- The shortcut-reference branch of `char_link` (`[text]`). -/
def charLinkShortcut (cfg : MDConfig) (fuel : Nat) (d : Buf)
    (pos txt_e : Nat) (is_img : Bool) (org_work_size : Nat)
    (text_has_nl : Bool) (ob : Buf) (s : PState) : Nat × Buf × PState :=
  match fuel with
  | 0 => (0, ob, { s with spanSize := org_work_size })
  | fuel + 1 =>
    let ires : Buf × PState :=
      if text_has_nl then (nlToSpaceId d pos txt_e, newbufSpan s)
      else (slice d (pos + 1) (txt_e - 1), s)
    match find_link_ref cfg.refs ires.1 with
    | none => (0, ob, { ires.2 with spanSize := org_work_size })
    | some lr => charLinkFinish cfg fuel d pos txt_e is_img org_work_size (txt_e + 1) (some lr.link) lr.title ob ires.2
termination_by structural fuel

/-- `char_link`: links, images and footnote references.  On *every*
path the SPAN pool top is reset to its entry value (`org_work_size`);
`in_link_body` is set while the display text is parsed and then set to
`0` — not to its entry value. -/
def char_link (cfg : MDConfig) (fuel : Nat) (d : Buf) (pos offset size : Nat)
    (ob : Buf) (s : PState) : Nat × Buf × PState :=
  match fuel with
  | 0 => (0, ob, s)
  | fuel + 1 =>
    let is_img := offset ≠ 0 ∧ byteAt d (pos - 1) == 33
    let org_work_size := s.spanSize
    if (is_img ∧ cfg.rndr.image.isNone) ∨ (¬is_img ∧ cfg.rndr.link.isNone) then
      (0, ob, { s with spanSize := org_work_size })
    else
      let br := linkBracketScan d pos size 1 1 false
      let text_has_nl := br.2
      if br.1 ≥ size then (0, ob, { s with spanSize := org_work_size })
      else
        let txt_e := br.1
        if cfg.ext.footnotes ∧ byteAt d (pos + 1) == 94 then
          charLinkFootnote cfg d pos txt_e org_work_size ob s
        else
          let i := firstIdx (fun j => !isspace (byteAt d (pos + j))) (txt_e + 1) size
          if i < size ∧ byteAt d (pos + i) == 40 then
            charLinkInline cfg fuel d pos size txt_e is_img org_work_size i ob s
          else if i < size ∧ byteAt d (pos + i) == 91 then
            charLinkRef cfg fuel d pos size txt_e is_img org_work_size text_has_nl i ob s
          else
            charLinkShortcut cfg fuel d pos txt_e is_img org_work_size text_has_nl ob s
termination_by structural fuel

/-- `char_superscript`: `^(...)` or `^token`. -/
def char_superscript (cfg : MDConfig) (fuel : Nat) (d : Buf)
    (pos _offset size : Nat) (ob : Buf) (s : PState) : Nat × Buf × PState :=
  match fuel with
  | 0 => (0, ob, s)
  | fuel + 1 =>
    if cfg.rndr.superscript.isNone then (0, ob, s)
    else if size < 2 then (0, ob, s)
    else
      let p : Nat × Nat :=
        if byteAt d (pos + 1) == 40 then
          (2, firstIdx (fun j => byteAt d (pos + j) == 41 ||
                                 byteAt d (pos + j - 1) == 92) 2 size)
        else
          (1, firstIdx (fun j => isspace (byteAt d (pos + j))) 1 size)
      let sup_start := p.1
      let sup_len := p.2
      if sup_start == 2 ∧ sup_len == size then (0, ob, s)
      else if sup_len - sup_start = 0 then
        (if sup_start == 2 then 3 else 0, ob, s)
      else
        let s := newbufSpan s
        let pw := parse_inline cfg fuel d (pos + sup_start)
          (sup_len - sup_start) [] s
        let res : Buf × Bool :=
          match cfg.rndr.superscript with
          | some sp => sp ob pw.1
          | none => (ob, false)
        let s := popbufSpan pw.2
        (if sup_start == 2 then sup_len + 1 else sup_len, res.1, s)

termination_by structural fuel
end

/-! ## Block-level helpers (pure line classifiers) -/

/-- List/table flag constants (`HOEDOWN_LIST_ORDERED`,
`HOEDOWN_LI_BLOCK`, internal `HOEDOWN_LI_END`, table cell flags). -/
def LIST_ORDERED : Nat := 1
def LI_BLOCK : Nat := 2
def LI_END : Nat := 8
def TABLE_ALIGN_L : Nat := 1
def TABLE_ALIGN_R : Nat := 2
def TABLE_HEADER : Nat := 4

/-- `is_empty`: length of the line when it holds only spaces, else 0. -/
def is_empty (d : Buf) (pos size : Nat) : Nat :=
  let i := firstIdx
    (fun j => byteAt d (pos + j) == 10 || byteAt d (pos + j) != 32) 0 size
  if i < size ∧ byteAt d (pos + i) ≠ 10 then 0 else i + 1

/-- `is_hrule`: three or more of the same `*`/`-`/`_` with only spaces
between, on one line. -/
def is_hrule (d : Buf) (pos size : Nat) : Bool :=
  if size < 3 then false
  else
    let i : Nat :=
      if byteAt d pos == 32 then
        if byteAt d (pos + 1) == 32 then
          if byteAt d (pos + 2) == 32 then 3 else 2
        else 1
      else 0
    if i + 2 ≥ size ∨
       (byteAt d (pos + i) ≠ 42 ∧ byteAt d (pos + i) ≠ 45 ∧
        byteAt d (pos + i) ≠ 95) then false
    else
      let c := byteAt d (pos + i)
      let stop := firstIdx
        (fun j => byteAt d (pos + j) == 10 ||
          !(byteAt d (pos + j) == c || byteAt d (pos + j) == 32)) i size
      if stop < size ∧ byteAt d (pos + stop) ≠ 10 then false
      else
        let n := ((List.range' i (stop - i)).filter
          (fun j => byteAt d (pos + j) == c)).length
        n ≥ 3

/-- `prefix_codefence`: up to three spaces then a run of at least three
`~` or backticks; returns the index just after the run. -/
def prefix_codefence (d : Buf) (pos size : Nat) : Nat :=
  if size < 3 then 0
  else
    let i : Nat :=
      if byteAt d pos == 32 then
        if byteAt d (pos + 1) == 32 then
          if byteAt d (pos + 2) == 32 then 3 else 2
        else 1
      else 0
    if i + 2 ≥ size ∨ (byteAt d (pos + i) ≠ 126 ∧ byteAt d (pos + i) ≠ 96)
    then 0
    else
      let c := byteAt d (pos + i)
      let i2 := firstIdx (fun j => byteAt d (pos + j) != c) i size
      if i2 - i < 3 then 0 else i2

/-- `is_codefence`: a fence line, returning `(consumed, info-string)`
(`consumed = 0` on failure; the info string is meaningful only on
success, like the C out-parameter). -/
def is_codefence (d : Buf) (pos size : Nat) : Nat × Buf :=
  let i := prefix_codefence d pos size
  if i = 0 then (0, [])
  else
    let i := firstIdx (fun j => byteAt d (pos + j) != 32) i size
    if i < size ∧ byteAt d (pos + i) == 123 then
      let synStart := i + 1
      let i2 := firstIdx
        (fun j => byteAt d (pos + j) == 125 || byteAt d (pos + j) == 10)
        synStart size
      if i2 = size ∨ byteAt d (pos + i2) ≠ 125 then (0, [])
      else
        -- strip whitespace inside the braces
        let b := firstIdx (fun j => !isspace (byteAt d (pos + j))) synStart i2
        let e := shrinkIdx (fun j => isspace (byteAt d (pos + j))) b i2
        let syn := slice d (pos + b) (e - b)
        let i3 := i2 + 1
        let i4 := firstIdx
          (fun j => byteAt d (pos + j) == 10 || !isspace (byteAt d (pos + j)))
          i3 size
        if i4 < size ∧ byteAt d (pos + i4) ≠ 10 then (0, [])
        else (i4 + 1, syn)
    else
      let i2 := firstIdx (fun j => isspace (byteAt d (pos + j))) i size
      let syn := slice d (pos + i) (i2 - i)
      let i4 := firstIdx
        (fun j => byteAt d (pos + j) == 10 || !isspace (byteAt d (pos + j)))
        i2 size
      if i4 < size ∧ byteAt d (pos + i4) ≠ 10 then (0, [])
      else (i4 + 1, syn)

/-- `is_atxheader`. -/
def is_atxheader (cfg : MDConfig) (d : Buf) (pos size : Nat) : Bool :=
  if byteAt d pos ≠ 35 then false
  else if cfg.ext.spaceHeaders then
    let level := firstIdx (fun j => byteAt d (pos + j) != 35) 0 (min size 6)
    !(level < size ∧ byteAt d (pos + level) ≠ 32)
  else true

/-- `is_headerline`: setext underline level (1 for `=`, 2 for `-`,
0 otherwise). -/
def is_headerline (d : Buf) (pos size : Nat) : Nat :=
  if byteAt d pos == 61 then
    let i := firstIdx (fun j => byteAt d (pos + j) != 61) 1 size
    let i := firstIdx (fun j => byteAt d (pos + j) != 32) i size
    if i ≥ size ∨ byteAt d (pos + i) == 10 then 1 else 0
  else if byteAt d pos == 45 then
    let i := firstIdx (fun j => byteAt d (pos + j) != 45) 1 size
    let i := firstIdx (fun j => byteAt d (pos + j) != 32) i size
    if i ≥ size ∨ byteAt d (pos + i) == 10 then 2 else 0
  else 0

/-- `is_next_headerline`. -/
def is_next_headerline (d : Buf) (pos size : Nat) : Nat :=
  let i := firstIdx (fun j => byteAt d (pos + j) == 10) 0 size
  if i + 1 ≥ size then 0
  else is_headerline d (pos + i + 1) (size - (i + 1))

/-- `prefix_quote`. -/
def prefix_quote (d : Buf) (pos size : Nat) : Nat :=
  let i : Nat :=
    if 0 < size ∧ byteAt d pos == 32 then
      if 1 < size ∧ byteAt d (pos + 1) == 32 then
        if 2 < size ∧ byteAt d (pos + 2) == 32 then 3 else 2
      else 1
    else 0
  if i < size ∧ byteAt d (pos + i) == 62 then
    if i + 1 < size ∧ byteAt d (pos + i + 1) == 32 then i + 2 else i + 1
  else 0

/-- `prefix_code`. -/
def prefix_code (d : Buf) (pos size : Nat) : Nat :=
  if size > 3 ∧ byteAt d pos == 32 ∧ byteAt d (pos + 1) == 32 ∧
     byteAt d (pos + 2) == 32 ∧ byteAt d (pos + 3) == 32 then 4 else 0

/-- `prefix_oli`. -/
def prefix_oli (d : Buf) (pos size : Nat) : Nat :=
  let i : Nat :=
    if 0 < size ∧ byteAt d pos == 32 then
      if 1 < size ∧ byteAt d (pos + 1) == 32 then
        if 2 < size ∧ byteAt d (pos + 2) == 32 then 3 else 2
      else 1
    else 0
  if i ≥ size ∨ byteAt d (pos + i) < 48 ∨ byteAt d (pos + i) > 57 then 0
  else
    let i := firstIdx
      (fun j => !(48 ≤ byteAt d (pos + j) && byteAt d (pos + j) ≤ 57)) i size
    if i + 1 ≥ size ∨ byteAt d (pos + i) ≠ 46 ∨ byteAt d (pos + i + 1) ≠ 32
    then 0
    else if is_next_headerline d (pos + i) (size - i) ≠ 0 then 0
    else i + 2

/-- `prefix_uli`. -/
def prefix_uli (d : Buf) (pos size : Nat) : Nat :=
  let i : Nat :=
    if 0 < size ∧ byteAt d pos == 32 then
      if 1 < size ∧ byteAt d (pos + 1) == 32 then
        if 2 < size ∧ byteAt d (pos + 2) == 32 then 3 else 2
      else 1
    else 0
  if i + 1 ≥ size ∨
     (byteAt d (pos + i) ≠ 42 ∧ byteAt d (pos + i) ≠ 43 ∧
      byteAt d (pos + i) ≠ 45) ∨
     byteAt d (pos + i + 1) ≠ 32 then 0
  else if is_next_headerline d (pos + i) (size - i) ≠ 0 then 0
  else i + 2

/-! ## Raw HTML blocks -/

/-- `htmlblock_end_tag`: `</tag>` (case-insensitive) followed by a
blank line, optionally another one; returns the matched length. -/
def htmlblock_end_tag (tag : Buf) (d : Buf) (pos size : Nat) : Nat :=
  if tag.length + 3 ≥ size ∨
     (slice d (pos + 2) tag.length).map asciiTolower ≠ tag.map asciiTolower ∨
     byteAt d (pos + tag.length + 2) ≠ 62 then 0
  else
    let i := tag.length + 3
    let w := if i < size then is_empty d (pos + i) (size - i) else 0
    if i < size ∧ w = 0 then 0
    else
      let i := i + w
      let w2 := if i < size then is_empty d (pos + i) (size - i) else 0
      i + w2

/-- The closing-tag search loop of `htmlblock_end`. -/
def htmlblockEndLoop (tag : Buf) (d : Buf) (pos size : Nat)
    (start_of_line : Bool) (i block_lines : Nat) (fuel : Nat) : Nat :=
  match fuel with
  | 0 => 0
  | fuel + 1 =>
    if i ≥ size then 0
    else
      -- i++; while (i < size && !(data[i-1]=='<' && data[i]=='/')) {...}
      let i0 := i + 1
      let i1 := firstIdx
        (fun j => byteAt d (pos + j - 1) == 60 && byteAt d (pos + j) == 47)
        i0 size
      let nl := ((List.range' i0 (i1 - i0)).filter
        (fun j => byteAt d (pos + j) == 10)).length
      let block_lines := block_lines + nl
      if start_of_line ∧ block_lines > 0 ∧ byteAt d (pos + i1 - 2) ≠ 10 then
        htmlblockEndLoop tag d pos size start_of_line i1 block_lines fuel
      else if i1 + 2 + tag.length ≥ size then 0
      else
        let end_tag := htmlblock_end_tag tag d (pos + i1 - 1) (size - i1 + 1)
        if end_tag ≠ 0 then i1 + end_tag - 1
        else htmlblockEndLoop tag d pos size start_of_line i1 block_lines fuel
termination_by structural fuel

/-- `htmlblock_end`. -/
def htmlblock_end (tag : Buf) (d : Buf) (pos size : Nat)
    (start_of_line : Bool) : Nat :=
  htmlblockEndLoop tag d pos size start_of_line 1 0 (size + 1)

/-- The `<hr>` special case of `parse_htmlblock`. -/
def htmlHrCase (cfg : MDConfig) (d : Buf) (pos size : Nat)
    (do_render : Bool) (ob : Buf) : Nat × Buf :=
  if size > 4 ∧ (byteAt d (pos + 1) == 104 ∨ byteAt d (pos + 1) == 72) ∧
     (byteAt d (pos + 2) == 114 ∨ byteAt d (pos + 2) == 82) then
    let i := firstIdx (fun j => byteAt d (pos + j) == 62) 3 size
    if i + 1 < size then
      let i := i + 1
      let j := is_empty d (pos + i) (size - i)
      if j ≠ 0 then
        let w := i + j
        (w, if do_render then
              match cfg.rndr.blockhtml with
              | some bh => bh ob (slice d pos w)
              | none => ob
            else ob)
      else (0, ob)
    else (0, ob)
  else (0, ob)

/-- `parse_htmlblock`.  With `do_render = false` no callback is
invoked (the paragraph-interruption probe). -/
def parse_htmlblock (cfg : MDConfig) (d : Buf) (pos size : Nat)
    (do_render : Bool) (ob : Buf) : Nat × Buf :=
  if size < 2 ∨ byteAt d pos ≠ 60 then (0, ob)
  else
    let i := firstIdx
      (fun j => byteAt d (pos + j) == 62 || byteAt d (pos + j) == 32) 1 size
    let curtag : Option Buf :=
      if i < size then cfg.findBlockTag (slice d (pos + 1) (i - 1))
      else Option.none
    match curtag with
    | none =>
        -- HTML comment, laxist form
        if size > 5 ∧ byteAt d (pos + 1) == 33 ∧ byteAt d (pos + 2) == 45 ∧
           byteAt d (pos + 3) == 45 then
          let i := firstIdx
            (fun j => byteAt d (pos + j - 2) == 45 &&
                      byteAt d (pos + j - 1) == 45 &&
                      byteAt d (pos + j) == 62) 5 size
          let i := i + 1
          let j := if i < size then is_empty d (pos + i) (size - i) else 0
          if j ≠ 0 then
            let w := i + j
            (w, if do_render then
                  match cfg.rndr.blockhtml with
                  | some bh => bh ob (slice d pos w)
                  | none => ob
                else ob)
          else htmlHrCase cfg d pos size do_render ob
        else htmlHrCase cfg d pos size do_render ob
    | some tag =>
        let tag_end := htmlblock_end tag d pos size true
        let tag_end :=
          if tag_end = 0 ∧ tag ≠ [105, 110, 115] ∧ tag ≠ [100, 101, 108] then
            htmlblock_end tag d pos size false
          else tag_end
        if tag_end = 0 then (0, ob)
        else
          (tag_end, if do_render then
                      match cfg.rndr.blockhtml with
                      | some bh => bh ob (slice d pos tag_end)
                      | none => ob
                    else ob)

/-! ## Simple block parsers -/

/-- `while (work->size && work->data[work->size-1] == '\n') work->size--`. -/
def trimNewlinesEnd (ob : Buf) : Buf :=
  (ob.reverse.dropWhile (fun c => c == 10)).reverse

/-- The line-collecting loop of `parse_fencedcode`. -/
def fencedCodeLoop (d : Buf) (pos size : Nat) (beg : Nat) (work : Buf)
    (fuel : Nat) : Nat × Buf :=
  match fuel with
  | 0 => (beg, work)
  | fuel + 1 =>
    if beg < size then
      let fc := is_codefence d (pos + beg) (size - beg)
      if fc.1 ≠ 0 ∧ fc.2 = [] then (beg + fc.1, work)
      else
        let e := firstIdx (fun k => byteAt d (pos + k - 1) == 10) (beg + 1) size
        let work :=
          if beg < e then
            if is_empty d (pos + beg) (e - beg) ≠ 0 then work ++ [10]
            else work ++ slice d (pos + beg) (e - beg)
          else work
        fencedCodeLoop d pos size e work fuel
    else (beg, work)

/-- `parse_fencedcode`. -/
def parse_fencedcode (cfg : MDConfig) (d : Buf) (pos size : Nat)
    (ob : Buf) (s : PState) : Nat × Buf × PState :=
  let fc := is_codefence d pos size
  if fc.1 = 0 then (0, ob, s)
  else
    let s := newbufBlock s
    let lw := fencedCodeLoop d pos size fc.1 [] (size + 1)
    let beg := lw.1
    let work := lw.2
    let work :=
      if work ≠ [] ∧ work.getLast? ≠ some 10 then work ++ [10] else work
    let ob := match cfg.rndr.blockcode with
      | some bc => bc ob work (if fc.2.length ≠ 0 then some fc.2 else Option.none)
      | none => ob
    (beg, ob, popbufBlock s)

/-- The line-collecting loop of `parse_blockcode`. -/
def blockCodeLoop (d : Buf) (pos size : Nat) (beg : Nat) (work : Buf)
    (fuel : Nat) : Nat × Buf :=
  match fuel with
  | 0 => (beg, work)
  | fuel + 1 =>
    if beg < size then
      let e := firstIdx (fun k => byteAt d (pos + k - 1) == 10) (beg + 1) size
      let pre := prefix_code d (pos + beg) (e - beg)
      if pre ≠ 0 ∨ is_empty d (pos + beg) (e - beg) ≠ 0 then
        let beg2 := beg + pre
        let work :=
          if beg2 < e then
            if is_empty d (pos + beg2) (e - beg2) ≠ 0 then work ++ [10]
            else work ++ slice d (pos + beg2) (e - beg2)
          else work
        blockCodeLoop d pos size e work fuel
      else (beg, work)
    else (beg, work)

/-- `parse_blockcode`. -/
def parse_blockcode (cfg : MDConfig) (d : Buf) (pos size : Nat)
    (ob : Buf) (s : PState) : Nat × Buf × PState :=
  let s := newbufBlock s
  let lw := blockCodeLoop d pos size 0 [] (size + 1)
  let beg := lw.1
  let work := lw.2
  let work := trimNewlinesEnd work ++ [10]
  let ob := match cfg.rndr.blockcode with
    | some bc => bc ob work Option.none
    | none => ob
  (beg, ob, popbufBlock s)

/-- `parse_atxheader`. -/
def parse_atxheader (cfg : MDConfig) (fuel : Nat) (d : Buf) (pos size : Nat)
    (ob : Buf) (s : PState) : Nat × Buf × PState :=
  let level := firstIdx (fun j => byteAt d (pos + j) != 35) 0 (min size 6)
  let i := firstIdx (fun j => byteAt d (pos + j) != 32) level size
  let e0 := firstIdx (fun j => byteAt d (pos + j) == 10) i size
  let skip := e0
  let e1 := shrinkIdx (fun j => byteAt d (pos + j) == 35) 0 e0
  let e2 := shrinkIdx (fun j => byteAt d (pos + j) == 32) 0 e1
  if e2 > i then
    let s := newbufSpan s
    let pw := parse_inline cfg fuel d (pos + i) (e2 - i) [] s
    let ob := match cfg.rndr.header with
      | some hd => hd ob pw.1 level
      | none => ob
    (skip, ob, popbufSpan pw.2)
  else (skip, ob, s)

/-! ## Tables -/

/-- The per-column cell loop of `parse_table_row`. -/
def tableRowCellsGo (cfg : MDConfig) (fuel : Nat) (d : Buf) (pos size : Nat)
    (columns : Nat) (col_data : List Nat) (header_flag : Nat) :
    Nat → Nat → Buf → PState → Nat → Nat × Buf × PState
  | col, _, row_work, s, 0 => (col, row_work, s)
  | col, i, row_work, s, gas + 1 =>
    if col < columns ∧ i < size then
      let s := newbufSpan s
      let i := firstIdx (fun j => !isspace (byteAt d (pos + j))) i size
      let cell_start := i
      let i2 := firstIdx (fun j => byteAt d (pos + j) == 124) i size
      let cell_end := shrinkIdxAt (fun j => isspace (byteAt d (pos + j)))
        cell_start (i2 - 1)
      let pw := parse_inline cfg fuel d (pos + cell_start)
        (1 + cell_end - cell_start) [] s
      let row_work := match cfg.rndr.table_cell with
        | some tc => tc row_work pw.1 ((col_data.getD col 0) ||| header_flag)
        | none => row_work
      let s := popbufSpan pw.2
      tableRowCellsGo cfg fuel d pos size columns col_data header_flag
        (col + 1) (i2 + 1) row_work s gas
    else (col, row_work, s)

def tableRowCells (cfg : MDConfig) (fuel : Nat) (d : Buf) (pos size : Nat)
    (columns : Nat) (col_data : List Nat) (header_flag : Nat)
    (col i : Nat) (row_work : Buf) (s : PState) : Nat × Buf × PState :=
  tableRowCellsGo cfg fuel d pos size columns col_data header_flag
    col i row_work s (columns + 1)

/-- `parse_table_row`. -/
def parse_table_row (cfg : MDConfig) (fuel : Nat) (d : Buf) (pos size : Nat)
    (columns : Nat) (col_data : List Nat) (header_flag : Nat)
    (ob : Buf) (s : PState) : Buf × PState :=
  if cfg.rndr.table_cell.isNone ∨ cfg.rndr.table_row.isNone then (ob, s)
  else
    let s := newbufSpan s
    let i0 : Nat := if 0 < size ∧ byteAt d pos == 124 then 1 else 0
    let rc := tableRowCells cfg fuel d pos size columns
      col_data header_flag 0 i0 [] s
    let col := rc.1
    let row_work := rc.2.1
    let s := rc.2.2
    let row_work := (List.range' col (columns - col)).foldl
      (fun rw c =>
        match cfg.rndr.table_cell with
        | some tc => tc rw [] ((col_data.getD c 0) ||| header_flag)
        | none => rw) row_work
    let ob := match cfg.rndr.table_row with
      | some tr => tr ob row_work
      | none => ob
    (ob, popbufSpan s)

/-- The underline-parsing loop of `parse_table_header`, computing the
per-column alignment flags. -/
def tableUnderlineLoopGo (d : Buf) (pos under_end columns : Nat) :
    Nat → Nat → List Nat → Nat → Nat × Nat × List Nat
  | col, i, col_data, 0 => (col, i, col_data)
  | col, i, col_data, gas + 1 =>
    if col < columns ∧ i < under_end then
      let i := firstIdx (fun j => byteAt d (pos + j) != 32) i under_end
      let p1 : Nat × List Nat × Nat :=
        if byteAt d (pos + i) == 58 then
          (i + 1, col_data.set col ((col_data.getD col 0) ||| TABLE_ALIGN_L), 1)
        else (i, col_data, 0)
      let i := p1.1
      let cd := p1.2.1
      let dashes := p1.2.2
      let i2 := firstIdx (fun j => byteAt d (pos + j) != 45) i under_end
      let dashes := dashes + (i2 - i)
      let p2 : Nat × List Nat × Nat :=
        if i2 < under_end ∧ byteAt d (pos + i2) == 58 then
          (i2 + 1, cd.set col ((cd.getD col 0) ||| TABLE_ALIGN_R), dashes + 1)
        else (i2, cd, dashes)
      let i3 := p2.1
      let cd := p2.2.1
      let dashes := p2.2.2
      let i4 := firstIdx (fun j => byteAt d (pos + j) != 32) i3 under_end
      if i4 < under_end ∧ byteAt d (pos + i4) ≠ 124 ∧ byteAt d (pos + i4) ≠ 43 then
        (col, i4, cd)
      else if dashes < 3 then (col, i4, cd)
      else tableUnderlineLoopGo d pos under_end columns (col + 1) (i4 + 1) cd gas
    else (col, i, col_data)

def tableUnderlineLoop (d : Buf) (pos under_end columns : Nat)
    (col i : Nat) (col_data : List Nat) : Nat × Nat × List Nat :=
  tableUnderlineLoopGo d pos under_end columns col i col_data (columns + 1)

/-- `parse_table_header`: recognise the header line and its underline;
returns `(consumed, columns, col_data, ob, s)` with `consumed = 0` when
this is not a table. -/
def parse_table_header (cfg : MDConfig) (fuel : Nat) (d : Buf)
    (pos size : Nat) (ob : Buf) (s : PState) :
    Nat × Nat × List Nat × Buf × PState :=
  let lineEnd := firstIdx (fun j => byteAt d (pos + j) == 10) 0 size
  let pipes : Int := (((List.range lineEnd).filter
    (fun j => byteAt d (pos + j) == 124)).length : Nat)
  if lineEnd = size ∨ pipes = 0 then (0, 0, [], ob, s)
  else
    let header_end := shrinkIdx (fun j => isspace (byteAt d (pos + j))) 0 lineEnd
    let pipes := if byteAt d pos == 124 then pipes - 1 else pipes
    let pipes :=
      if header_end ≠ 0 ∧ byteAt d (pos + header_end - 1) == 124 then pipes - 1
      else pipes
    if pipes < 0 then (0, 0, [], ob, s)
    else
      let columns := (pipes + 1).toNat
      let col_data := List.replicate columns 0
      let i := lineEnd + 1
      let i := if i < size ∧ byteAt d (pos + i) == 124 then i + 1 else i
      let under_end := firstIdx (fun j => byteAt d (pos + j) == 10) i size
      let (col, _, col_data) := tableUnderlineLoop d pos under_end columns 0 i col_data
      if col < columns then (0, columns, col_data, ob, s)
      else
        let pr := parse_table_row cfg fuel d pos header_end columns
          col_data TABLE_HEADER ob s
        (under_end + 1, columns, col_data, pr.1, pr.2)

/-- The body-row loop of `parse_table`. -/
def tableBodyLoop (cfg : MDConfig) (fuel : Nat) (d : Buf) (pos size : Nat)
    (columns : Nat) (col_data : List Nat) (i : Nat) (body : Buf)
    (s : PState) (loopFuel : Nat) : Nat × Buf × PState :=
  match loopFuel with
  | 0 => (i, body, s)
  | loopFuel + 1 =>
    if i < size then
      let row_start := i
      let lineEnd := firstIdx (fun j => byteAt d (pos + j) == 10) i size
      let pipes := ((List.range' i (lineEnd - i)).filter
        (fun j => byteAt d (pos + j) == 124)).length
      if pipes = 0 ∨ lineEnd = size then (row_start, body, s)
      else
        let pr := parse_table_row cfg fuel d (pos + row_start)
          (lineEnd - row_start) columns col_data 0 body s
        tableBodyLoop cfg fuel d pos size columns col_data (lineEnd + 1)
          pr.1 pr.2 loopFuel
    else (i, body, s)

/-- `parse_table`. -/
def parse_table (cfg : MDConfig) (fuel : Nat) (d : Buf) (pos size : Nat)
    (ob : Buf) (s : PState) : Nat × Buf × PState :=
  let s := newbufSpan s
  let s := newbufBlock s
  let th := parse_table_header cfg fuel d pos size [] s
  let i := th.1
  let columns := th.2.1
  let col_data := th.2.2.1
  let header_work := th.2.2.2.1
  let s := th.2.2.2.2
  if i > 0 then
    let bl := tableBodyLoop cfg fuel d pos size columns
      col_data i [] s (size + 1)
    let ob := match cfg.rndr.table with
      | some tb => tb ob header_work bl.2.1
      | none => ob
    (bl.1, ob, popbufBlock (popbufSpan bl.2.2))
  else (i, ob, popbufBlock (popbufSpan s))

/-! ## Paragraphs and setext headers -/

/-- The paragraph-termination scan of `parse_paragraph`: returns
`(i, end, level)` — the content size, the consumed size, and the setext
header level (0 for a plain paragraph). -/
def paragraphScan (cfg : MDConfig) (d : Buf) (pos size : Nat) (i : Nat)
    (fuel : Nat) : Nat × Nat × Nat :=
  match fuel with
  | 0 => (i, i, 0)
  | fuel + 1 =>
    if i < size then
      let e := firstIdx (fun k => byteAt d (pos + k - 1) == 10) (i + 1) size
      if is_empty d (pos + i) (size - i) ≠ 0 then (i, e, 0)
      else
        let level := is_headerline d (pos + i) (size - i)
        if level ≠ 0 then (i, e, level)
        else if is_atxheader cfg d (pos + i) (size - i) ∨
                is_hrule d (pos + i) (size - i) ∨
                prefix_quote d (pos + i) (size - i) ≠ 0 then (i, i, 0)
        else if cfg.ext.laxSpacing ∧ !isalnum (byteAt d (pos + i)) then
          if prefix_oli d (pos + i) (size - i) ≠ 0 ∨
             prefix_uli d (pos + i) (size - i) ≠ 0 then (i, i, 0)
          else if byteAt d (pos + i) == 60 ∧ cfg.rndr.blockhtml.isSome ∧
              (parse_htmlblock cfg d (pos + i) (size - i) false []).1 ≠ 0 then
            (i, i, 0)
          else if cfg.ext.fencedCode ∧
              (is_codefence d (pos + i) (size - i)).1 ≠ 0 then (i, i, 0)
          else paragraphScan cfg d pos size e fuel
        else paragraphScan cfg d pos size e fuel
    else (i, i, 0)

/-- `parse_paragraph` (which also renders setext headers). -/
def parse_paragraph (cfg : MDConfig) (fuel : Nat) (d : Buf) (pos size : Nat)
    (ob : Buf) (s : PState) : Nat × Buf × PState :=
  let sc := paragraphScan cfg d pos size 0 (size + 1)
  let i := sc.1
  let e := sc.2.1
  let level := sc.2.2
  let workSize := shrinkIdx (fun j => byteAt d (pos + j) == 10) 0 i
  if level = 0 then
    let s := newbufBlock s
    let pw := parse_inline cfg fuel d pos workSize [] s
    let ob := match cfg.rndr.paragraph with
      | some p => p ob pw.1
      | none => ob
    (e, ob, popbufBlock pw.2)
  else
    if workSize ≠ 0 then
      let iW := workSize
      let w2 := shrinkIdxAt (fun j => byteAt d (pos + j) != 10) 0 (workSize - 1)
      let beg := w2 + 1
      let w3 := shrinkIdx (fun j => byteAt d (pos + j) == 10) 0 w2
      if w3 > 0 then
        let s := newbufBlock s
        let pw := parse_inline cfg fuel d pos w3 [] s
        let ob := match cfg.rndr.paragraph with
          | some p => p ob pw.1
          | none => ob
        let s := popbufBlock pw.2
        let s := newbufSpan s
        let ph := parse_inline cfg fuel d (pos + beg) (iW - beg) [] s
        let ob := match cfg.rndr.header with
          | some hd => hd ob ph.1 level
          | none => ob
        (e, ob, popbufSpan ph.2)
      else
        let s := newbufSpan s
        let ph := parse_inline cfg fuel d pos iW [] s
        let ob := match cfg.rndr.header with
          | some hd => hd ob ph.1 level
          | none => ob
        (e, ob, popbufSpan ph.2)
    else
      let s := newbufSpan s
      let ph := parse_inline cfg fuel d pos 0 [] s
      let ob := match cfg.rndr.header with
        | some hd => hd ob ph.1 level
        | none => ob
      (e, ob, popbufSpan ph.2)

/-! ## Blockquotes, lists and the block dispatcher -/

/-- The prefix-stripping loop of `parse_blockquote`.  The C code
compacts the quoted line bodies in place with `memmove` and then parses
that region; every write lands strictly before the region the outer
parser will resume from, so collecting the stripped lines into a fresh
buffer is observationally the same.  Returns `(work, end)`. -/
def bqLoop (d : Buf) (pos size : Nat) (beg end_ : Nat) (work : Buf)
    (fuel : Nat) : Buf × Nat :=
  match fuel with
  | 0 => (work, end_)
  | fuel + 1 =>
    if beg < size then
      let e := firstIdx (fun k => byteAt d (pos + k - 1) == 10) (beg + 1) size
      let pre := prefix_quote d (pos + beg) (e - beg)
      if pre ≠ 0 then
        let beg2 := beg + pre
        let work := if beg2 < e then work ++ slice d (pos + beg2) (e - beg2) else work
        bqLoop d pos size e e work fuel
      else if is_empty d (pos + beg) (e - beg) ≠ 0 ∧
          (e ≥ size ∨ (prefix_quote d (pos + e) (size - e) = 0 ∧
                       is_empty d (pos + e) (size - e) = 0)) then
        (work, e)
      else
        let work := if beg < e then work ++ slice d (pos + beg) (e - beg) else work
        bqLoop d pos size e e work fuel
    else (work, end_)

/-- The line-joining loop of `parse_listitem`.  Returns
`(beg, flags, work, has_inside_empty, sublist)`. -/
def listItemLoop (cfg : MDConfig) (d : Buf) (pos size orgpre : Nat)
    (flags : Nat) (beg : Nat) (work : Buf)
    (in_empty has_inside_empty in_fence : Bool) (sublist : Nat)
    (fuel : Nat) : Nat × Nat × Buf × Bool × Nat :=
  match fuel with
  | 0 => (beg, flags, work, has_inside_empty, sublist)
  | fuel + 1 =>
    if beg < size then
      let e := firstIdx (fun k => byteAt d (pos + k - 1) == 10) (beg + 1) size
      if is_empty d (pos + beg) (e - beg) ≠ 0 then
        listItemLoop cfg d pos size orgpre flags e work true
          has_inside_empty in_fence sublist fuel
      else
        let i := firstIdx (fun j => byteAt d (pos + beg + j) != 32) 0
          (min 4 (e - beg))
        let pre := i
        let in_fence :=
          if cfg.ext.fencedCode ∧
             (is_codefence d (pos + beg + i) (e - beg - i)).1 ≠ 0 then
            !in_fence
          else in_fence
        let has_next_uli :=
          if !in_fence then prefix_uli d (pos + beg + i) (e - beg - i) else 0
        let has_next_oli :=
          if !in_fence then prefix_oli d (pos + beg + i) (e - beg - i) else 0
        if in_empty ∧
           ((flags &&& LIST_ORDERED ≠ 0 ∧ has_next_uli ≠ 0) ∨
            (flags &&& LIST_ORDERED = 0 ∧ has_next_oli ≠ 0)) then
          (beg, flags ||| LI_END, work, has_inside_empty, sublist)
        else if (has_next_uli ≠ 0 ∧ !is_hrule d (pos + beg + i) (e - beg - i)) ∨
            has_next_oli ≠ 0 then
          let has_inside_empty := has_inside_empty || in_empty
          if pre = orgpre then (beg, flags, work, has_inside_empty, sublist)
          else
            let sublist := if sublist = 0 then work.length else sublist
            let work := work ++ slice d (pos + beg + i) (e - beg - i)
            listItemLoop cfg d pos size orgpre flags e work false
              has_inside_empty in_fence sublist fuel
        else if in_empty ∧ pre = 0 then
          (beg, flags ||| LI_END, work, has_inside_empty, sublist)
        else
          let p : Buf × Bool :=
            if in_empty then (work ++ [10], true) else (work, has_inside_empty)
          let work := p.1 ++ slice d (pos + beg + i) (e - beg - i)
          listItemLoop cfg d pos size orgpre flags e work false
            p.2 in_fence sublist fuel
    else (beg, flags, work, has_inside_empty, sublist)

mutual

/-- `parse_block`: the block dispatcher.  Returns immediately when the
combined pool depth exceeds `max_nesting`. -/
def parse_block (cfg : MDConfig) (fuel : Nat) (d : Buf) (pos size : Nat)
    (ob : Buf) (s : PState) : Buf × PState :=
  match fuel with
  | 0 => (ob, s)
  | fuel + 1 =>
    if s.spanSize + s.blockSize > cfg.maxNesting then (ob, s)
    else parseBlockLoop cfg fuel d pos size 0 ob s

/-- One iteration of the `parse_block` loop: try each block construct
in priority order at `txt` (length `e`) and return
`(consumed, ob, s)`. -/
def blockStep (cfg : MDConfig) (fuel : Nat) (d : Buf) (txt e : Nat)
    (ob : Buf) (s : PState) : Nat × Buf × PState :=
  match fuel with
  | 0 => (0, ob, s)
  | fuel + 1 =>
    if is_atxheader cfg d txt e then parse_atxheader cfg fuel d txt e ob s
    else
      let hb := parse_htmlblock cfg d txt e true ob
      if byteAt d txt == 60 ∧ cfg.rndr.blockhtml.isSome ∧ hb.1 ≠ 0 then
        (hb.1, hb.2, s)
      else
        let emp := is_empty d txt e
        if emp ≠ 0 then (emp, ob, s)
        else if is_hrule d txt e then
          let ob := match cfg.rndr.hrule with
            | some hr => hr ob
            | none => ob
          (firstIdx (fun k => byteAt d (txt + k) == 10) 0 e + 1, ob, s)
        else
          let fc :=
            if cfg.ext.fencedCode then parse_fencedcode cfg d txt e ob s
            else (0, ob, s)
          if cfg.ext.fencedCode ∧ fc.1 ≠ 0 then fc
          else
            let tb :=
              if cfg.ext.tables then parse_table cfg fuel d txt e ob s
              else (0, ob, s)
            if cfg.ext.tables ∧ tb.1 ≠ 0 then tb
            else if prefix_quote d txt e ≠ 0 then
              parse_blockquote cfg fuel d txt e ob s
            else if !cfg.ext.disableIndentedCode ∧ prefix_code d txt e ≠ 0 then
              parse_blockcode cfg d txt e ob s
            else if prefix_uli d txt e ≠ 0 then
              parse_list cfg fuel d txt e 0 ob s
            else if prefix_oli d txt e ≠ 0 then
              parse_list cfg fuel d txt e LIST_ORDERED ob s
            else parse_paragraph cfg fuel d txt e ob s

/-- The main loop of `parse_block`: one `blockStep` per line group. -/
def parseBlockLoop (cfg : MDConfig) (fuel : Nat) (d : Buf) (pos size : Nat)
    (beg : Nat) (ob : Buf) (s : PState) : Buf × PState :=
  match fuel with
  | 0 => (ob, s)
  | fuel + 1 =>
    if beg < size then
      let r := blockStep cfg fuel d (pos + beg) (size - beg) ob s
      parseBlockLoop cfg fuel d pos size (beg + r.1) r.2.1 r.2.2
    else (ob, s)

/-- `parse_blockquote`. -/
def parse_blockquote (cfg : MDConfig) (fuel : Nat) (d : Buf) (pos size : Nat)
    (ob : Buf) (s : PState) : Nat × Buf × PState :=
  match fuel with
  | 0 => (0, ob, s)
  | fuel + 1 =>
    let s := newbufBlock s
    let we := bqLoop d pos size 0 0 [] (size + 1)
    let pb := parse_block cfg fuel we.1 0 we.1.length [] s
    let ob := match cfg.rndr.blockquote with
      | some bq => bq ob pb.1
      | none => ob
    (we.2, ob, popbufBlock pb.2)

/-- `parse_listitem`.  `flags` is in-out, as the C `int *flags`.
Returns `(consumed, flags, ob, s)`. -/
def parse_listitem (cfg : MDConfig) (fuel : Nat) (d : Buf) (pos size : Nat)
    (flags : Nat) (ob : Buf) (s : PState) : Nat × Nat × Buf × PState :=
  match fuel with
  | 0 => (0, flags, ob, s)
  | fuel + 1 =>
    let orgpre := firstIdx (fun j => byteAt d (pos + j) != 32) 0 (min 3 size)
    let begU := prefix_uli d pos size
    let beg0 := if begU ≠ 0 then begU else prefix_oli d pos size
    if beg0 = 0 then (0, flags, ob, s)
    else
      let e0 := firstIdx (fun k => byteAt d (pos + k - 1) == 10) beg0 size
      let s := newbufSpan s
      let s := newbufSpan s
      let work0 := slice d (pos + beg0) (e0 - beg0)
      let li := listItemLoop cfg d pos size orgpre flags e0 work0 false false
        false 0 (size + 2)
      let beg := li.1
      let flags := li.2.1
      let work := li.2.2.1
      let has_inside_empty := li.2.2.2.1
      let sublist := li.2.2.2.2
      let flags := if has_inside_empty then flags ||| LI_BLOCK else flags
      let ir : Buf × PState :=
        if flags &&& LI_BLOCK ≠ 0 then
          if sublist ≠ 0 ∧ sublist < work.length then
            let p1 := parse_block cfg fuel work 0 sublist [] s
            parse_block cfg fuel work sublist (work.length - sublist) p1.1 p1.2
          else parse_block cfg fuel work 0 work.length [] s
        else
          if sublist ≠ 0 ∧ sublist < work.length then
            let p1 := parse_inline cfg fuel work 0 sublist [] s
            parse_block cfg fuel work sublist (work.length - sublist) p1.1 p1.2
          else parse_inline cfg fuel work 0 work.length [] s
      let ob := match cfg.rndr.listitem with
        | some li => li ob ir.1 flags
        | none => ob
      (beg, flags, ob, popbufSpan (popbufSpan ir.2))

/-- The item loop of `parse_list`.  Returns `(i, flags, work, s)`. -/
def parseListLoop (cfg : MDConfig) (fuel : Nat) (d : Buf) (pos size : Nat)
    (i flags : Nat) (work : Buf) (s : PState) : Nat × Nat × Buf × PState :=
  match fuel with
  | 0 => (i, flags, work, s)
  | fuel + 1 =>
    if i < size then
      let r := parse_listitem cfg fuel d (pos + i) (size - i) flags work s
      let j := r.1
      let flags := r.2.1
      let work := r.2.2.1
      let s := r.2.2.2
      let i := i + j
      if j = 0 ∨ flags &&& LI_END ≠ 0 then (i, flags, work, s)
      else parseListLoop cfg fuel d pos size i flags work s
    else (i, flags, work, s)

/-- `parse_list`. -/
def parse_list (cfg : MDConfig) (fuel : Nat) (d : Buf) (pos size : Nat)
    (flags : Nat) (ob : Buf) (s : PState) : Nat × Buf × PState :=
  match fuel with
  | 0 => (0, ob, s)
  | fuel + 1 =>
    let s := newbufBlock s
    let ll := parseListLoop cfg fuel d pos size 0 flags [] s
    let ob := match cfg.rndr.list with
      | some l => l ob ll.2.2.1 ll.2.1
      | none => ob
    (ll.1, ob, popbufBlock ll.2.2.2)

end

/-! ## Footnote rendering -/

/-- `parse_footnote_def`: render one footnote body as blocks. -/
def parse_footnote_def (cfg : MDConfig) (fuel : Nat) (contents : Buf)
    (num : Nat) (ob : Buf) (s : PState) : Buf × PState :=
  let s := newbufSpan s
  let pb := parse_block cfg fuel contents 0 contents.length [] s
  let ob := match cfg.rndr.footnote_def with
    | some fd => fd ob pb.1 num
    | none => ob
  (ob, popbufSpan pb.2)

/-- `parse_footnote_list`: render the used footnotes in first-use
order. -/
def parse_footnote_list (cfg : MDConfig) (fuel : Nat) (ob : Buf)
    (s : PState) : Buf × PState :=
  if s.fnUsed.length = 0 then (ob, s)
  else
    let s0 := newbufBlock s
    let wk := s.fnUsed.foldl
      (fun (acc : Buf × PState) idx =>
        let fr := acc.2.fnFound.getD idx fnDefault
        parse_footnote_def cfg fuel fr.contents fr.num acc.1 acc.2)
      ([], s0)
    let ob := match cfg.rndr.footnotes with
      | some fn => fn ob wk.1
      | none => ob
    (ob, popbufBlock wk.2)

/-! ## Pass 1: reference and footnote pre-scanning -/

/-- The body-collecting loop of `is_footnote` (absolute indices into
the document).  Returns `(last, contents)`. -/
def isFootnoteBody (d : Buf) (endd id_end : Nat) (start : Nat)
    (in_empty : Bool) (contents : Buf) (fuel : Nat) : Nat × Buf :=
  match fuel with
  | 0 => (start, contents)
  | fuel + 1 =>
    if start < endd then
      let i := firstIdx
        (fun j => byteAt d j == 10 || byteAt d j == 13) start endd
      if is_empty d start (i - start) ≠ 0 then
        let i2 :=
          if i < endd ∧ (byteAt d i == 10 ∨ byteAt d i == 13) then
            (if i + 1 < endd ∧ byteAt d (i + 1) == 10 ∧ byteAt d i == 13
             then i + 2 else i + 1)
          else i
        isFootnoteBody d endd id_end i2 true contents fuel
      else
        let ind := firstIdx (fun j => byteAt d (start + j) != 32) 0
          (min 4 (endd - start))
        if ind = 0 ∧ ¬(start = id_end + 2 ∧ byteAt d start == 9) then
          (start, contents)
        else
          let contents := if ind ≠ 0 ∧ in_empty then contents ++ [10] else contents
          let contents := contents ++ slice d (start + ind) (i - start - ind)
          let p : Buf × Nat :=
            if i < endd then
              (contents ++ [10],
               if byteAt d i == 10 ∨ byteAt d i == 13 then
                 (if i + 1 < endd ∧ byteAt d (i + 1) == 10 ∧ byteAt d i == 13
                  then i + 2 else i + 1)
               else i)
            else (contents, i)
          isFootnoteBody d endd id_end p.2 false p.1 fuel
    else (start, contents)

/-- `is_footnote`: recognise `[^id]:` plus its indented body; on
success returns `(last, id-name, contents)`. -/
def is_footnote (d : Buf) (beg endd : Nat) : Option (Nat × Buf × Buf) :=
  if beg + 3 ≥ endd then Option.none
  else
    let isp : Nat :=
      if byteAt d beg == 32 then
        if byteAt d (beg + 1) == 32 then
          if byteAt d (beg + 2) == 32 then
            if byteAt d (beg + 3) == 32 then 4 else 3
          else 2
        else 1
      else 0
    if isp = 4 then Option.none
    else
      let i := isp + beg
      if byteAt d i ≠ 91 then Option.none
      else
        let i := i + 1
        if i ≥ endd ∨ byteAt d i ≠ 94 then Option.none
        else
          let i := i + 1
          let id_offset := i
          let i := firstIdx
            (fun j => byteAt d j == 10 || byteAt d j == 13 || byteAt d j == 93)
            i endd
          if i ≥ endd ∨ byteAt d i ≠ 93 then Option.none
          else
            let id_end := i
            let i := i + 1
            if i ≥ endd ∨ byteAt d i ≠ 58 then Option.none
            else
              let i := i + 1
              let bc := isFootnoteBody d endd id_end i false [] (endd + 2 - i)
              some (bc.1, slice d id_offset (id_end - id_offset), bc.2)

/-- `is_ref`: recognise `[id]: link "title"`; on success returns
`(last, id-name, link, title)`. -/
def is_ref (d : Buf) (beg endd : Nat) : Option (Nat × Buf × Buf × Option Buf) :=
  if beg + 3 ≥ endd then Option.none
  else
    let isp : Nat :=
      if byteAt d beg == 32 then
        if byteAt d (beg + 1) == 32 then
          if byteAt d (beg + 2) == 32 then
            if byteAt d (beg + 3) == 32 then 4 else 3
          else 2
        else 1
      else 0
    if isp = 4 then Option.none
    else
      let i := isp + beg
      if byteAt d i ≠ 91 then Option.none
      else
        let i := i + 1
        let id_offset := i
        let i := firstIdx
          (fun j => byteAt d j == 10 || byteAt d j == 13 || byteAt d j == 93)
          i endd
        if i ≥ endd ∨ byteAt d i ≠ 93 then Option.none
        else
          let id_end := i
          let i := i + 1
          if i ≥ endd ∨ byteAt d i ≠ 58 then Option.none
          else
            let i := i + 1
            let i := firstIdx (fun j => byteAt d j != 32) i endd
            let i :=
              if i < endd ∧ (byteAt d i == 10 ∨ byteAt d i == 13) then
                (let i' := i + 1
                 if i' < endd ∧ byteAt d i' == 13 ∧ byteAt d (i' - 1) == 10
                 then i' + 1 else i')
              else i
            let i := firstIdx (fun j => byteAt d j != 32) i endd
            if i ≥ endd then Option.none
            else
              let i := if byteAt d i == 60 then i + 1 else i
              let link_offset := i
              let i := firstIdx
                (fun j => byteAt d j == 32 || byteAt d j == 10 ||
                          byteAt d j == 13) i endd
              let link_end := if byteAt d (i - 1) == 62 then i - 1 else i
              let i := firstIdx (fun j => byteAt d j != 32) i endd
              if i < endd ∧ byteAt d i ≠ 10 ∧ byteAt d i ≠ 13 ∧
                 byteAt d i ≠ 39 ∧ byteAt d i ≠ 34 ∧ byteAt d i ≠ 40 then
                Option.none
              else
                let line_end : Nat :=
                  if i ≥ endd ∨ byteAt d i == 13 ∨ byteAt d i == 10 then i else 0
                let line_end :=
                  if i + 1 < endd ∧ byteAt d i == 10 ∧ byteAt d (i + 1) == 13
                  then i + 1 else line_end
                let i :=
                  if line_end ≠ 0 then
                    firstIdx (fun j => byteAt d j != 32) (line_end + 1) endd
                  else i
                let tl : Nat × Nat × Nat :=
                  if i + 1 < endd ∧
                     (byteAt d i == 39 ∨ byteAt d i == 34 ∨ byteAt d i == 40) then
                    let title_offset := i + 1
                    let i2 := firstIdx
                      (fun j => byteAt d j == 10 || byteAt d j == 13)
                      title_offset endd
                    let title_end0 :=
                      if i2 + 1 < endd ∧ byteAt d i2 == 10 ∧
                         byteAt d (i2 + 1) == 13 then i2 + 1 else i2
                    let k := shrinkIdxAt (fun j => byteAt d j == 32)
                      title_offset (i2 - 1)
                    if k > title_offset ∧
                       (byteAt d k == 39 ∨ byteAt d k == 34 ∨ byteAt d k == 41)
                    then (title_offset, k, title_end0)
                    else (0, 0, line_end)
                  else (0, 0, line_end)
                let title_offset := tl.1
                let title_end := tl.2.1
                let line_end := tl.2.2
                if line_end = 0 ∨ link_end = link_offset then Option.none
                else
                  some (line_end, slice d id_offset (id_end - id_offset),
                        slice d link_offset (link_end - link_offset),
                        if title_end > title_offset then
                          some (slice d title_offset (title_end - title_offset))
                        else Option.none)

/-- `expand_tabs`: copy a line expanding tabs to 4-column stops. -/
def expand_tabsLoop (ob : Buf) (d : Buf) (pos size : Nat) (i tab : Nat)
    (fuel : Nat) : Buf :=
  match fuel with
  | 0 => ob
  | fuel + 1 =>
    if i < size then
      let i2 := firstIdx (fun j => byteAt d (pos + j) == 9) i size
      let tab := tab + (i2 - i)
      let ob := if i2 > i then ob ++ slice d (pos + i) (i2 - i) else ob
      if i2 ≥ size then ob
      else
        let pad := 4 - tab % 4
        expand_tabsLoop (ob ++ List.replicate pad 32) d pos size (i2 + 1)
          (tab + pad) fuel
    else ob

def expand_tabs (ob : Buf) (d : Buf) (pos size : Nat) : Buf :=
  expand_tabsLoop ob d pos size 0 0 (size + 1)

/-- The `\r`/`\n` collapsing run of pass 1: one `\n` per source line. -/
def newlineCollapse (doc : Buf) (e : Nat) (text : Buf) (fuel : Nat) :
    Nat × Buf :=
  match fuel with
  | 0 => (e, text)
  | fuel + 1 =>
    if e < doc.length ∧ (byteAt doc e == 10 ∨ byteAt doc e == 13) then
      let text :=
        if byteAt doc e == 10 ∨ (e + 1 < doc.length ∧ byteAt doc (e + 1) ≠ 10)
        then text ++ [10] else text
      newlineCollapse doc (e + 1) text fuel
    else (e, text)

/-- The pass-1 line loop of `hoedown_markdown_render`: divert footnote
and reference definitions, normalise everything else into `text`. -/
def pass1Loop (cfg : MDConfig) (doc : Buf) (beg : Nat) (text : Buf)
    (refs : RefTable) (fnFound : List FootnoteRef) (fuel : Nat) :
    Buf × RefTable × List FootnoteRef :=
  match fuel with
  | 0 => (text, refs, fnFound)
  | fuel + 1 =>
    if beg < doc.length then
      match (if cfg.ext.footnotes then is_footnote doc beg doc.length
             else Option.none) with
      | some (last, idName, contents) =>
          pass1Loop cfg doc last text refs
            (fnFound ++ [{ id := hash_link_ref idName, is_used := false,
                           num := 0, contents := contents }]) fuel
      | none =>
        match is_ref doc beg doc.length with
        | some (last, name, link, title) =>
            pass1Loop cfg doc last text (add_link_ref refs name link title)
              fnFound fuel
        | none =>
            let e := firstIdx
              (fun j => byteAt doc j == 10 || byteAt doc j == 13) beg doc.length
            let text := if e > beg then expand_tabs text doc beg (e - beg)
                        else text
            let nc := newlineCollapse doc e text (doc.length + 1)
            pass1Loop cfg doc nc.1 nc.2 refs fnFound fuel
    else (text, refs, fnFound)

/-- `hoedown_markdown_new`: build the parser configuration (callbacks,
flags, active-character table); the scanners and the block-tag
recogniser are the opaque collaborators. -/
def hoedown_markdown_new (extensions : ExtFlags) (max_nesting : Nat)
    (renderer : Renderer) (scanWWW scanURL scanEmail : Scanner)
    (findBlockTag : Buf → Option Buf) : MDConfig :=
  { rndr := renderer, ext := extensions, maxNesting := max_nesting,
    active := activeCharsOf renderer extensions, refs := emptyRefs,
    scanWWW := scanWWW, scanURL := scanURL, scanEmail := scanEmail,
    findBlockTag := findBlockTag }

/-- `hoedown_markdown_render`: skip the BOM, run pass 1, ensure the
normalised text ends with a newline, run the block parser, render the
used footnotes and the header/footer callbacks.  Returns the output and
the final parser state (whose pool tops the C code asserts to be 0). -/
def hoedown_markdown_render (cfg : MDConfig) (fuel : Nat) (doc : Buf)
    (ob : Buf) : Buf × PState :=
  let beg0 := if doc.length ≥ 3 ∧ doc.take 3 = [239, 187, 191] then 3 else 0
  let p1 := pass1Loop cfg doc beg0 [] emptyRefs [] (doc.length + 2)
  let text := p1.1
  let cfg := { cfg with refs := p1.2.1 }
  let s : PState := { fnFound := p1.2.2 }
  let ob := match cfg.rndr.doc_header with
    | some dh => dh ob
    | none => ob
  let bs : Buf × PState :=
    if text.length ≠ 0 then
      let text :=
        if text.getLast? ≠ some 10 ∧ text.getLast? ≠ some 13 then text ++ [10]
        else text
      parse_block cfg fuel text 0 text.length ob s
    else (ob, s)
  let fs : Buf × PState :=
    if cfg.ext.footnotes then parse_footnote_list cfg fuel bs.1 bs.2
    else (bs.1, bs.2)
  let ob := match cfg.rndr.doc_footer with
    | some df => df fs.1
    | none => fs.1
  (ob, fs.2)

/-! ## Pool balance and the depth bound

`PoolOK m s s'` says a parser step left both pool tops exactly where it
found them and never drove the combined depth above `max s.maxSeen m`
(the ghost `maxSeen` field records the peak). -/

def PoolOK (m : Nat) (s s' : PState) : Prop :=
  s'.spanSize = s.spanSize ∧ s'.blockSize = s.blockSize ∧
  s'.maxSeen ≤ max s.maxSeen m

theorem PoolOK.refl {m : Nat} {s : PState} : PoolOK m s s :=
  ⟨Eq.refl _, Eq.refl _, Nat.le_max_left _ _⟩

theorem PoolOK.trans {m : Nat} {s t u : PState}
    (h1 : PoolOK m s t) (h2 : PoolOK m t u) : PoolOK m s u := by
  obtain ⟨a, b, c⟩ := h1
  obtain ⟨e, f, g⟩ := h2
  exact ⟨e.trans a, f.trans b, by omega⟩

theorem char_escape_state (cfg : MDConfig) (d : Buf) (pos off size : Nat)
    (ob : Buf) (s : PState) :
    (char_escape cfg d pos off size ob s).2.2 = s := by
  simp only [char_escape]
  repeat' split
  all_goals rfl

theorem char_entity_state (cfg : MDConfig) (d : Buf) (pos off size : Nat)
    (ob : Buf) (s : PState) :
    (char_entity cfg d pos off size ob s).2.2 = s := by
  simp only [char_entity]
  repeat' split
  all_goals rfl

theorem char_linebreak_state (cfg : MDConfig) (d : Buf) (pos off size : Nat)
    (ob : Buf) (s : PState) :
    (char_linebreak cfg d pos off size ob s).2.2 = s := by
  simp only [char_linebreak]
  repeat' split
  all_goals rfl

theorem char_codespan_state (cfg : MDConfig) (d : Buf) (pos off size : Nat)
    (ob : Buf) (s : PState) :
    (char_codespan cfg d pos off size ob s).2.2 = s := by
  simp only [char_codespan]
  repeat' split
  all_goals rfl

theorem char_quote_state (cfg : MDConfig) (d : Buf) (pos off size : Nat)
    (ob : Buf) (s : PState) :
    (char_quote cfg d pos off size ob s).2.2 = s := by
  simp only [char_quote]
  repeat' split
  all_goals rfl

theorem char_langle_tag_pool (cfg : MDConfig) (d : Buf) (pos off size : Nat)
    (ob : Buf) (s : PState) (m : Nat)
    (h : s.spanSize + s.blockSize + 1 ≤ m) :
    PoolOK m s (char_langle_tag cfg d pos off size ob s).2.2 := by
  simp only [char_langle_tag]
  repeat' split
  all_goals simp_all [PoolOK, newbufSpan, popbufSpan]
  all_goals omega

theorem char_autolink_www_pool (cfg : MDConfig) (d : Buf)
    (pos off size : Nat) (ob : Buf) (s : PState) (m : Nat)
    (h : s.spanSize + s.blockSize + 3 ≤ m) :
    PoolOK m s (char_autolink_www cfg d pos off size ob s).2.2 := by
  simp only [char_autolink_www]
  repeat' split
  all_goals simp_all [PoolOK, newbufSpan, popbufSpan]
  all_goals omega

theorem char_autolink_email_pool (cfg : MDConfig) (d : Buf)
    (pos off size : Nat) (ob : Buf) (s : PState) (m : Nat)
    (h : s.spanSize + s.blockSize + 1 ≤ m) :
    PoolOK m s (char_autolink_email cfg d pos off size ob s).2.2 := by
  simp only [char_autolink_email]
  repeat' split
  all_goals simp_all [PoolOK, newbufSpan, popbufSpan]
  all_goals omega

theorem char_autolink_url_pool (cfg : MDConfig) (d : Buf)
    (pos off size : Nat) (ob : Buf) (s : PState) (m : Nat)
    (h : s.spanSize + s.blockSize + 1 ≤ m) :
    PoolOK m s (char_autolink_url cfg d pos off size ob s).2.2 := by
  simp only [char_autolink_url]
  repeat' split
  all_goals simp_all [PoolOK, newbufSpan, popbufSpan]
  all_goals omega

/-- Acquire, parse, release: a `newbufSpan`/`popbufSpan` pair around a
balanced sub-parse is balanced. -/
theorem pool_push_parse_pop {m : Nat} {s t : PState}
    (hp : PoolOK m (newbufSpan s) t)
    (hd : s.spanSize + s.blockSize + 1 ≤ m) : PoolOK m s (popbufSpan t) := by
  obtain ⟨a, b, c⟩ := hp
  refine ⟨?_, ?_, ?_⟩ <;> simp only [popbufSpan, newbufSpan] at a b c ⊢ <;> omega

/-- The BLOCK-pool variant of `pool_push_parse_pop`. -/
theorem pool_pushB_parse_popB {m : Nat} {s t : PState}
    (hp : PoolOK m (newbufBlock s) t)
    (hd : s.spanSize + s.blockSize + 1 ≤ m) : PoolOK m s (popbufBlock t) := by
  obtain ⟨a, b, c⟩ := hp
  refine ⟨?_, ?_, ?_⟩ <;> simp only [popbufBlock, newbufBlock] at a b c ⊢ <;> omega

/-- Sequencing: a balanced step followed by a balanced continuation
(whose depth precondition the step preserves) is balanced. -/
theorem pool_step_loop {m K : Nat} {s t u : PState}
    (h1 : PoolOK m s t) (h2 : t.spanSize + t.blockSize ≤ K → PoolOK m t u)
    (hd : s.spanSize + s.blockSize ≤ K) : PoolOK m s u :=
  h1.trans (h2 (by obtain ⟨a, b, _⟩ := h1; omega))

/-- The footnote branch of `char_link` touches no pool buffer: it only
marks the footnote used and renders, then resets the SPAN top (to its
own entry value here). -/
theorem charLinkFootnote_pool (cfg : MDConfig) (d : Buf) (pos txt_e : Nat)
    (ob : Buf) (s : PState) (m : Nat) :
    PoolOK m s (charLinkFootnote cfg d pos txt_e s.spanSize ob s).2.2 := by
  simp only [charLinkFootnote]
  repeat' split
  all_goals exact ⟨Eq.refl _, Eq.refl _, Nat.le_max_left _ _⟩

set_option maxHeartbeats 2000000 in
/-- Pool balance and the depth bound for the whole inline layer, by
induction on fuel: every inline parser and handler restores both pool
tops, and the ghost peak `maxSeen` never exceeds
`max (entry peak) m` for any `m ≥ max_nesting + 4`, provided the entry
depth satisfies the stated bound. -/
theorem inlinePool (cfg : MDConfig) (m : Nat) (hm : cfg.maxNesting + 4 ≤ m) :
    (fuel : Nat) →
    (∀ d start size ob s, PoolOK m s (parse_inline cfg fuel d start size ob s).2) ∧
    (∀ d start size i sf ob s, s.spanSize + s.blockSize ≤ cfg.maxNesting →
      PoolOK m s (parseInlineLoop cfg fuel d start size i sf ob s).2) ∧
    (∀ a d pos off size ob s, s.spanSize + s.blockSize ≤ cfg.maxNesting →
      PoolOK m s (dispatchChar cfg fuel a d pos off size ob s).2.2) ∧
    (∀ d pos off size ob s, s.spanSize + s.blockSize ≤ cfg.maxNesting →
      PoolOK m s (char_emphasis cfg fuel d pos off size ob s).2.2) ∧
    (∀ d pos size c ob s, s.spanSize + s.blockSize ≤ cfg.maxNesting →
      PoolOK m s (parse_emph1 cfg fuel d pos size c ob s).2.2) ∧
    (∀ d pos size c i ob s, s.spanSize + s.blockSize ≤ cfg.maxNesting →
      PoolOK m s (parseEmph1Loop cfg fuel d pos size c i ob s).2.2) ∧
    (∀ d pos size c ob s, s.spanSize + s.blockSize ≤ cfg.maxNesting →
      PoolOK m s (parse_emph2 cfg fuel d pos size c ob s).2.2) ∧
    (∀ d pos size c i ob s, s.spanSize + s.blockSize ≤ cfg.maxNesting →
      PoolOK m s (parseEmph2Loop cfg fuel d pos size c i ob s).2.2) ∧
    (∀ d pos size c ob s, s.spanSize + s.blockSize ≤ cfg.maxNesting →
      PoolOK m s (parse_emph3 cfg fuel d pos size c ob s).2.2) ∧
    (∀ d pos size c i ob s, s.spanSize + s.blockSize ≤ cfg.maxNesting →
      PoolOK m s (parseEmph3Loop cfg fuel d pos size c i ob s).2.2) ∧
    (∀ d pos txt_e is_img org i lnk ttl ob s,
      s.spanSize + s.blockSize + 2 ≤ m →
      (charLinkFinish cfg fuel d pos txt_e is_img org i lnk ttl ob s).2.2.spanSize = org ∧
      (charLinkFinish cfg fuel d pos txt_e is_img org i lnk ttl ob s).2.2.blockSize = s.blockSize ∧
      (charLinkFinish cfg fuel d pos txt_e is_img org i lnk ttl ob s).2.2.maxSeen ≤ max s.maxSeen m) ∧
    (∀ d pos txt_e is_img org lk tb te inext ob s,
      s.spanSize + s.blockSize + 4 ≤ m →
      (charLinkBuild cfg fuel d pos txt_e is_img org lk tb te inext ob s).2.2.spanSize = org ∧
      (charLinkBuild cfg fuel d pos txt_e is_img org lk tb te inext ob s).2.2.blockSize = s.blockSize ∧
      (charLinkBuild cfg fuel d pos txt_e is_img org lk tb te inext ob s).2.2.maxSeen ≤ max s.maxSeen m) ∧
    (∀ d pos size txt_e is_img org i ob s,
      s.spanSize + s.blockSize + 4 ≤ m →
      (charLinkInline cfg fuel d pos size txt_e is_img org i ob s).2.2.spanSize = org ∧
      (charLinkInline cfg fuel d pos size txt_e is_img org i ob s).2.2.blockSize = s.blockSize ∧
      (charLinkInline cfg fuel d pos size txt_e is_img org i ob s).2.2.maxSeen ≤ max s.maxSeen m) ∧
    (∀ d pos size txt_e is_img org tnl i ob s,
      s.spanSize + s.blockSize + 4 ≤ m →
      (charLinkRef cfg fuel d pos size txt_e is_img org tnl i ob s).2.2.spanSize = org ∧
      (charLinkRef cfg fuel d pos size txt_e is_img org tnl i ob s).2.2.blockSize = s.blockSize ∧
      (charLinkRef cfg fuel d pos size txt_e is_img org tnl i ob s).2.2.maxSeen ≤ max s.maxSeen m) ∧
    (∀ d pos txt_e is_img org tnl ob s,
      s.spanSize + s.blockSize + 4 ≤ m →
      (charLinkShortcut cfg fuel d pos txt_e is_img org tnl ob s).2.2.spanSize = org ∧
      (charLinkShortcut cfg fuel d pos txt_e is_img org tnl ob s).2.2.blockSize = s.blockSize ∧
      (charLinkShortcut cfg fuel d pos txt_e is_img org tnl ob s).2.2.maxSeen ≤ max s.maxSeen m) ∧
    (∀ d pos off size ob s, s.spanSize + s.blockSize ≤ cfg.maxNesting →
      PoolOK m s (char_link cfg fuel d pos off size ob s).2.2) ∧
    (∀ d pos off size ob s, s.spanSize + s.blockSize ≤ cfg.maxNesting →
      PoolOK m s (char_superscript cfg fuel d pos off size ob s).2.2)
  | 0 => by
    refine ⟨?_, ?_, ?_, ?_, ?_, ?_, ?_, ?_, ?_, ?_, ?_, ?_, ?_, ?_, ?_, ?_, ?_⟩ <;> intros <;>
      simp only [parse_inline, parseInlineLoop, dispatchChar, char_emphasis,
        parse_emph1, parseEmph1Loop, parse_emph2, parseEmph2Loop, parse_emph3,
        parseEmph3Loop, charLinkFinish, charLinkBuild, charLinkInline,
        charLinkRef, charLinkShortcut, char_link, char_superscript] <;>
      first
        | trivial
        | exact PoolOK.refl
        | (refine ⟨?_, ?_, ?_⟩ <;> first | trivial | rfl | exact Nat.le_max_left _ _)
  | fuel + 1 => by
    obtain ⟨ih_pi, ih_loop, ih_disp, ih_ce, ih_e1, ih_e1l, ih_e2, ih_e2l,
      ih_e3, ih_e3l, ih_fin, ih_bld, ih_cli, ih_clr, ih_cls, ih_cl, ih_cs⟩ :=
      inlinePool cfg m hm fuel
    refine ⟨?_, ?_, ?_, ?_, ?_, ?_, ?_, ?_, ?_, ?_, ?_, ?_, ?_, ?_, ?_, ?_, ?_⟩
    -- parse_inline
    · intro d start size ob s
      simp only [parse_inline]
      split
      · exact PoolOK.refl
      · rename_i hg
        exact ih_loop _ _ _ _ _ _ _ (by omega)
    -- parseInlineLoop
    · intro d start size i sf ob s hdep
      simp only [parseInlineLoop]
      repeat' split
      all_goals
        first
          | exact PoolOK.refl
          | exact pool_step_loop (ih_disp _ _ _ _ _ _ _ hdep)
              (fun h => ih_loop _ _ _ _ _ _ _ h) hdep
    -- dispatchChar
    · intro a d pos off size ob s hdep
      cases a <;> simp only [dispatchChar]
      case none => exact PoolOK.refl
      case emphasis => exact ih_ce _ _ _ _ _ _ hdep
      case codespan => rw [char_codespan_state]; exact PoolOK.refl
      case linebreak => rw [char_linebreak_state]; exact PoolOK.refl
      case link => exact ih_cl _ _ _ _ _ _ hdep
      case langle => exact char_langle_tag_pool _ _ _ _ _ _ _ m (by omega)
      case escape => rw [char_escape_state]; exact PoolOK.refl
      case entity => rw [char_entity_state]; exact PoolOK.refl
      case autolinkUrl => exact char_autolink_url_pool _ _ _ _ _ _ _ m (by omega)
      case autolinkEmail => exact char_autolink_email_pool _ _ _ _ _ _ _ m (by omega)
      case autolinkWww => exact char_autolink_www_pool _ _ _ _ _ _ _ m (by omega)
      case superscript => exact ih_cs _ _ _ _ _ _ hdep
      case quote => rw [char_quote_state]; exact PoolOK.refl
    -- char_emphasis
    · intro d pos off size ob s hdep
      simp only [char_emphasis]
      repeat' split
      all_goals
        first
          | exact PoolOK.refl
          | exact ih_e1 _ _ _ _ _ _ hdep
          | exact ih_e2 _ _ _ _ _ _ hdep
          | exact ih_e3 _ _ _ _ _ _ hdep
    -- parse_emph1
    · intro d pos size c ob s hdep
      simp only [parse_emph1]
      exact ih_e1l _ _ _ _ _ _ _ hdep
    -- parseEmph1Loop
    · intro d pos size c i ob s hdep
      simp only [parseEmph1Loop]
      repeat' split
      all_goals
        first
          | exact PoolOK.refl
          | exact ih_e1l _ _ _ _ _ _ _ hdep
          | exact pool_push_parse_pop (ih_pi _ _ _ _ _) (by omega)
    -- parse_emph2
    · intro d pos size c ob s hdep
      simp only [parse_emph2]
      exact ih_e2l _ _ _ _ _ _ _ hdep
    -- parseEmph2Loop
    · intro d pos size c i ob s hdep
      simp only [parseEmph2Loop]
      repeat' split
      all_goals
        first
          | exact PoolOK.refl
          | exact ih_e2l _ _ _ _ _ _ _ hdep
          | exact pool_push_parse_pop (ih_pi _ _ _ _ _) (by omega)
    -- parse_emph3
    · intro d pos size c ob s hdep
      simp only [parse_emph3]
      exact ih_e3l _ _ _ _ _ _ _ hdep
    -- parseEmph3Loop
    · intro d pos size c i ob s hdep
      simp only [parseEmph3Loop]
      repeat' split
      all_goals
        first
          | exact PoolOK.refl
          | exact ih_e3l _ _ _ _ _ _ _ hdep
          | exact ih_e1 _ _ _ _ _ _ hdep
          | exact ih_e2 _ _ _ _ _ _ hdep
          | exact pool_push_parse_pop (ih_pi _ _ _ _ _) (by omega)
    -- charLinkFinish
    · intro d pos txt_e is_img org i lnk ttl ob s hdep
      cases lnk <;> simp only [charLinkFinish] <;> repeat' split
      all_goals
        refine ⟨?_, ?_, ?_⟩
      all_goals
        first
          | rfl
          | (first
              | omega
              | (simp only [newbufSpan]; omega)
              | exact Nat.le_max_left _ _
              | (exact le_trans
                  ((ih_pi _ _ _ _ _).2.2)
                  (by simp only [newbufSpan]; omega))
              | (have hp := ih_pi d (pos + 1) (txt_e - 1) ([] : Buf)
                  { newbufSpan s with inLinkBody := true }
                 obtain ⟨a, b, c⟩ := hp
                 simp only [newbufSpan] at a b c ⊢ <;> omega))
    -- charLinkBuild
    · intro d pos txt_e is_img org lk tb te inext ob s hdep
      simp only [charLinkBuild]
      repeat' split
      all_goals
        refine ⟨(ih_fin _ _ _ _ _ _ _ _ _ _ ?_).1,
          (ih_fin _ _ _ _ _ _ _ _ _ _ ?_).2.1,
          le_trans (ih_fin _ _ _ _ _ _ _ _ _ _ ?_).2.2 ?_⟩ <;>
        first
          | omega
          | (simp only [newbufSpan]; omega)
    -- charLinkInline
    · intro d pos size txt_e is_img org i ob s hdep
      simp only [charLinkInline]
      repeat' split
      all_goals
        first
          | exact ⟨Eq.refl _, Eq.refl _, Nat.le_max_left _ _⟩
          | exact ih_bld _ _ _ _ _ _ _ _ _ _ _ (by omega)
    -- charLinkRef
    · intro d pos size txt_e is_img org tnl i ob s hdep
      simp only [charLinkRef]
      repeat' split
      all_goals
        first
          | exact ⟨Eq.refl _, Eq.refl _, Nat.le_max_left _ _⟩
          | (refine ⟨Eq.refl _, Eq.refl _, ?_⟩; simp only [newbufSpan]; omega)
          | (refine ⟨(ih_fin _ _ _ _ _ _ _ _ _ _ ?_).1,
               (ih_fin _ _ _ _ _ _ _ _ _ _ ?_).2.1,
               le_trans (ih_fin _ _ _ _ _ _ _ _ _ _ ?_).2.2 ?_⟩ <;>
             first
               | omega
               | (simp only [newbufSpan]; omega))
    -- charLinkShortcut
    · intro d pos txt_e is_img org tnl ob s hdep
      simp only [charLinkShortcut]
      repeat' split
      all_goals
        first
          | exact ⟨Eq.refl _, Eq.refl _, Nat.le_max_left _ _⟩
          | (refine ⟨Eq.refl _, Eq.refl _, ?_⟩; simp only [newbufSpan]; omega)
          | (refine ⟨(ih_fin _ _ _ _ _ _ _ _ _ _ ?_).1,
               (ih_fin _ _ _ _ _ _ _ _ _ _ ?_).2.1,
               le_trans (ih_fin _ _ _ _ _ _ _ _ _ _ ?_).2.2 ?_⟩ <;>
             first
               | omega
               | (simp only [newbufSpan]; omega))
    -- char_link
    · intro d pos off size ob s hdep
      simp only [char_link]
      repeat' split
      all_goals
        first
          | exact PoolOK.refl
          | exact ⟨Eq.refl _, Eq.refl _, Nat.le_max_left _ _⟩
          | exact charLinkFootnote_pool _ _ _ _ _ _ _
          | (exact ⟨(ih_cli _ _ _ _ _ _ _ _ _ (by omega)).1,
              (ih_cli _ _ _ _ _ _ _ _ _ (by omega)).2.1,
              (ih_cli _ _ _ _ _ _ _ _ _ (by omega)).2.2⟩)
          | (exact ⟨(ih_clr _ _ _ _ _ _ _ _ _ _ (by omega)).1,
              (ih_clr _ _ _ _ _ _ _ _ _ _ (by omega)).2.1,
              (ih_clr _ _ _ _ _ _ _ _ _ _ (by omega)).2.2⟩)
          | (exact ⟨(ih_cls _ _ _ _ _ _ _ _ (by omega)).1,
              (ih_cls _ _ _ _ _ _ _ _ (by omega)).2.1,
              (ih_cls _ _ _ _ _ _ _ _ (by omega)).2.2⟩)
    -- char_superscript
    · intro d pos off size ob s hdep
      simp only [char_superscript]
      repeat' split
      all_goals
        first
          | exact PoolOK.refl
          | exact pool_push_parse_pop (ih_pi _ _ _ _ _) (by omega)

/-- Sequencing with the depth equalities made available to the
continuation. -/
theorem pool_seq {m : Nat} {s t u : PState} (h1 : PoolOK m s t)
    (h2 : t.spanSize = s.spanSize → t.blockSize = s.blockSize → PoolOK m t u) :
    PoolOK m s u :=
  h1.trans (h2 h1.1 h1.2.1)

/-- Two SPAN acquires around a balanced parse, released in order. -/
theorem pool_push2s_pop2 {m : Nat} {s t : PState}
    (hp : PoolOK m (newbufSpan (newbufSpan s)) t)
    (hd : s.spanSize + s.blockSize + 2 ≤ m) :
    PoolOK m s (popbufSpan (popbufSpan t)) := by
  obtain ⟨a, b, c⟩ := hp
  refine ⟨?_, ?_, ?_⟩ <;>
    simp only [popbufSpan, newbufSpan] at a b c ⊢ <;> omega

/-- A SPAN acquire then a BLOCK acquire around a balanced parse,
released in reverse order (the `parse_table` shape). -/
theorem pool_pushSB_pop2 {m : Nat} {s t : PState}
    (hp : PoolOK m (newbufBlock (newbufSpan s)) t)
    (hd : s.spanSize + s.blockSize + 2 ≤ m) :
    PoolOK m s (popbufBlock (popbufSpan t)) := by
  obtain ⟨a, b, c⟩ := hp
  refine ⟨?_, ?_, ?_⟩ <;>
    simp only [popbufBlock, popbufSpan, newbufBlock, newbufSpan] at a b c ⊢ <;>
    omega

/-- `parse_inline` balances the pools from any entry state (the first
conjunct of `inlinePool`, restated for convenient use). -/
theorem parse_inline_pool (cfg : MDConfig) (m : Nat)
    (hm : cfg.maxNesting + 4 ≤ m) (fuel : Nat) (d : Buf) (start size : Nat)
    (ob : Buf) (s : PState) :
    PoolOK m s (parse_inline cfg fuel d start size ob s).2 :=
  (inlinePool cfg m hm fuel).1 d start size ob s

attribute [irreducible] firstIdxGo firstIdx shrinkIdx shrinkIdxAt unscapeGo unscape_text trimSpacesEnd delimCloseScanGo delimCloseScan mailScanGo mailScan tagAutolinkEndGo tagAutolinkEnd emphBacktickScanGo emphBacktickScan emphScanRecordGo emphScanRecord linkBracketScanGo linkBracketScan linkInlineEndGo linkInlineEnd linkTitleScanGo linkTitleScan is_empty is_hrule prefix_codefence is_codefence is_atxheader is_headerline is_next_headerline prefix_quote prefix_code prefix_oli prefix_uli htmlblock_end_tag htmlblockEndLoop htmlblock_end htmlHrCase parse_htmlblock trimNewlinesEnd fencedCodeLoop blockCodeLoop tableUnderlineLoopGo tableUnderlineLoop paragraphScan bqLoop listItemLoop

attribute [irreducible] parse_inline parseInlineLoop dispatchChar char_emphasis parse_emph1 parseEmph1Loop parse_emph2 parseEmph2Loop parse_emph3 parseEmph3Loop charLinkFinish charLinkBuild charLinkInline charLinkRef charLinkShortcut char_link char_superscript

/-- `parse_fencedcode` balances the pools: one BLOCK acquire, one
release. -/
theorem parse_fencedcode_pool (cfg : MDConfig) (d : Buf) (pos size : Nat)
    (ob : Buf) (s : PState) (m : Nat)
    (h : s.spanSize + s.blockSize + 1 ≤ m) :
    PoolOK m s (parse_fencedcode cfg d pos size ob s).2.2 := by
  simp only [parse_fencedcode]
  repeat' split
  all_goals simp_all [PoolOK, newbufBlock, popbufBlock]
  all_goals omega

/-- `parse_blockcode` balances the pools: one BLOCK acquire, one
release. -/
theorem parse_blockcode_pool (cfg : MDConfig) (d : Buf) (pos size : Nat)
    (ob : Buf) (s : PState) (m : Nat)
    (h : s.spanSize + s.blockSize + 1 ≤ m) :
    PoolOK m s (parse_blockcode cfg d pos size ob s).2.2 := by
  simp only [parse_blockcode]
  simp_all [PoolOK, newbufBlock, popbufBlock]
  omega

/-- `parse_atxheader` balances the pools: one SPAN acquire around a
balanced `parse_inline`. -/
theorem parse_atxheader_pool (cfg : MDConfig) (m : Nat)
    (hm : cfg.maxNesting + 4 ≤ m) (fuel : Nat) (d : Buf) (pos size : Nat)
    (ob : Buf) (s : PState) (h : s.spanSize + s.blockSize + 1 ≤ m) :
    PoolOK m s (parse_atxheader cfg fuel d pos size ob s).2.2 := by
  simp only [parse_atxheader]
  split
  · exact pool_push_parse_pop (parse_inline_pool cfg m hm fuel _ _ _ _ _)
      (by omega)
  · exact PoolOK.refl

/-- The cell loop of `parse_table_row` balances the pools: each cell is
one SPAN acquire around a balanced `parse_inline`, then a release. -/
theorem tableRowCellsGo_pool (cfg : MDConfig) (m : Nat)
    (hm : cfg.maxNesting + 4 ≤ m) (fuel : Nat) (d : Buf) (pos size : Nat)
    (columns : Nat) (col_data : List Nat) (hf : Nat) :
    ∀ (gas col i : Nat) (rw : Buf) (s : PState),
      s.spanSize + s.blockSize + 1 ≤ m →
      PoolOK m s (tableRowCellsGo cfg fuel d pos size columns col_data hf
        col i rw s gas).2.2
  | 0, col, i, rw, s => by
    intro h
    simp only [tableRowCellsGo]
    exact PoolOK.refl
  | gas + 1, col, i, rw, s => by
    intro h
    simp only [tableRowCellsGo]
    split
    · exact pool_seq
        (pool_push_parse_pop (parse_inline_pool cfg m hm fuel _ _ _ _ _)
          (by omega))
        (fun e1 e2 => tableRowCellsGo_pool cfg m hm fuel d pos size columns
          col_data hf gas _ _ _ _ (by omega))
    · exact PoolOK.refl

theorem tableRowCells_pool (cfg : MDConfig) (m : Nat)
    (hm : cfg.maxNesting + 4 ≤ m) (fuel : Nat) (d : Buf) (pos size : Nat)
    (columns : Nat) (col_data : List Nat) (hf : Nat) :
    ∀ col i rw (s : PState), s.spanSize + s.blockSize + 1 ≤ m →
      PoolOK m s (tableRowCells cfg fuel d pos size columns col_data hf
        col i rw s).2.2 := by
  intro col i rw s h
  simp only [tableRowCells]
  exact tableRowCellsGo_pool cfg m hm fuel d pos size columns col_data hf
    (columns + 1) col i rw s h

/-- `parse_table_row` balances the pools. -/
theorem parse_table_row_pool (cfg : MDConfig) (m : Nat)
    (hm : cfg.maxNesting + 4 ≤ m) (fuel : Nat) (d : Buf) (pos size : Nat)
    (columns : Nat) (col_data : List Nat) (hf : Nat) (ob : Buf) (s : PState)
    (h : s.spanSize + s.blockSize + 2 ≤ m) :
    PoolOK m s (parse_table_row cfg fuel d pos size columns col_data hf
      ob s).2 := by
  simp only [parse_table_row]
  split
  · exact PoolOK.refl
  · exact pool_push_parse_pop
      (tableRowCells_pool cfg m hm fuel d pos size columns col_data hf _ _ _ _
        (by simp only [newbufSpan]; omega))
      (by omega)

/-- `parse_table_header` balances the pools. -/
theorem parse_table_header_pool (cfg : MDConfig) (m : Nat)
    (hm : cfg.maxNesting + 4 ≤ m) (fuel : Nat) (d : Buf) (pos size : Nat)
    (ob : Buf) (s : PState) (h : s.spanSize + s.blockSize + 2 ≤ m) :
    PoolOK m s (parse_table_header cfg fuel d pos size ob s).2.2.2.2 := by
  simp only [parse_table_header]
  repeat' split
  all_goals
    first
      | exact PoolOK.refl
      | exact parse_table_row_pool cfg m hm fuel _ _ _ _ _ _ _ _ (by omega)

/-- The body-row loop of `parse_table` balances the pools. -/
theorem tableBodyLoop_pool (cfg : MDConfig) (m : Nat)
    (hm : cfg.maxNesting + 4 ≤ m) (fuel : Nat) (d : Buf) (pos size : Nat)
    (columns : Nat) (col_data : List Nat) :
    ∀ (lf : Nat) i body (s : PState), s.spanSize + s.blockSize + 2 ≤ m →
      PoolOK m s (tableBodyLoop cfg fuel d pos size columns col_data i body
        s lf).2.2
  | 0 => by
    intro i body s h
    simp only [tableBodyLoop]
    exact PoolOK.refl
  | lf + 1 => by
    intro i body s h
    simp only [tableBodyLoop]
    repeat' split
    all_goals
      first
        | exact PoolOK.refl
        | exact pool_seq
            (parse_table_row_pool cfg m hm fuel _ _ _ _ _ _ _ _ (by omega))
            (fun e1 e2 => tableBodyLoop_pool cfg m hm fuel d pos size columns
              col_data lf _ _ _ (by omega))

/-- `parse_table` balances the pools: one SPAN and one BLOCK acquire
around the balanced header and body parses. -/
theorem parse_table_pool (cfg : MDConfig) (m : Nat)
    (hm : cfg.maxNesting + 4 ≤ m) (fuel : Nat) (d : Buf) (pos size : Nat)
    (ob : Buf) (s : PState) (h : s.spanSize + s.blockSize + 4 ≤ m) :
    PoolOK m s (parse_table cfg fuel d pos size ob s).2.2 := by
  simp only [parse_table]
  split
  · exact pool_pushSB_pop2
      (pool_seq
        (parse_table_header_pool cfg m hm fuel _ _ _ _ _
          (by simp only [newbufBlock, newbufSpan]; omega))
        (fun e1 e2 => tableBodyLoop_pool cfg m hm fuel d pos size _ _ _ _ _ _
          (by simp only [newbufBlock, newbufSpan] at e1 e2 ⊢; omega)))
      (by omega)
  · exact pool_pushSB_pop2
      (parse_table_header_pool cfg m hm fuel _ _ _ _ _
        (by simp only [newbufBlock, newbufSpan]; omega))
      (by omega)

set_option maxHeartbeats 4000000 in
/-- `parse_paragraph` balances the pools on every path. -/
theorem parse_paragraph_pool (cfg : MDConfig) (m : Nat)
    (hm : cfg.maxNesting + 4 ≤ m) (fuel : Nat) (d : Buf) (pos size : Nat)
    (ob : Buf) (s : PState) (h : s.spanSize + s.blockSize + 1 ≤ m) :
    PoolOK m s (parse_paragraph cfg fuel d pos size ob s).2.2 := by
  simp only [parse_paragraph]
  repeat' split
  all_goals
    first
      | exact pool_pushB_parse_popB (parse_inline_pool cfg m hm fuel _ _ _ _ _)
          (by omega)
      | exact pool_push_parse_pop (parse_inline_pool cfg m hm fuel _ _ _ _ _)
          (by omega)
      | exact pool_seq
          (pool_pushB_parse_popB (parse_inline_pool cfg m hm fuel _ _ _ _ _)
            (by omega))
          (fun e1 e2 =>
            pool_push_parse_pop (parse_inline_pool cfg m hm fuel _ _ _ _ _)
              (by omega))

set_option maxHeartbeats 4000000 in
/-- Pool balance and the depth bound for the block layer, by induction
on fuel. -/
theorem blockPool (cfg : MDConfig) (m : Nat) (hm : cfg.maxNesting + 4 ≤ m) :
    (fuel : Nat) →
    (∀ d pos size ob s, PoolOK m s (parse_block cfg fuel d pos size ob s).2) ∧
    (∀ d txt e ob s, s.spanSize + s.blockSize ≤ cfg.maxNesting →
      PoolOK m s (blockStep cfg fuel d txt e ob s).2.2) ∧
    (∀ d pos size beg ob s, s.spanSize + s.blockSize ≤ cfg.maxNesting →
      PoolOK m s (parseBlockLoop cfg fuel d pos size beg ob s).2) ∧
    (∀ d pos size ob s, s.spanSize + s.blockSize + 1 ≤ m →
      PoolOK m s (parse_blockquote cfg fuel d pos size ob s).2.2) ∧
    (∀ d pos size flags ob s, s.spanSize + s.blockSize + 2 ≤ m →
      PoolOK m s (parse_listitem cfg fuel d pos size flags ob s).2.2.2) ∧
    (∀ d pos size i flags work s, s.spanSize + s.blockSize + 2 ≤ m →
      PoolOK m s (parseListLoop cfg fuel d pos size i flags work s).2.2.2) ∧
    (∀ d pos size flags ob s, s.spanSize + s.blockSize + 3 ≤ m →
      PoolOK m s (parse_list cfg fuel d pos size flags ob s).2.2)
  | 0 => by
    refine ⟨?_, ?_, ?_, ?_, ?_, ?_, ?_⟩ <;> intros <;>
      simp only [parse_block, blockStep, parseBlockLoop, parse_blockquote,
        parse_listitem, parseListLoop, parse_list] <;>
      exact PoolOK.refl
  | fuel + 1 => by
    obtain ⟨ih_pb, ih_step, ih_loop, ih_bq, ih_li, ih_ll, ih_ls⟩ :=
      blockPool cfg m hm fuel
    have hpi := (inlinePool cfg m hm fuel).1
    refine ⟨?_, ?_, ?_, ?_, ?_, ?_, ?_⟩
    -- parse_block
    · intro d pos size ob s
      simp only [parse_block]
      split
      · exact PoolOK.refl
      · rename_i hg
        exact ih_loop _ _ _ _ _ _ (by omega)
    -- blockStep
    · intro d txt e ob s hdep
      simp only [blockStep]
      repeat' split
      all_goals
        first
          | exact PoolOK.refl
          | exact parse_atxheader_pool cfg m hm fuel _ _ _ _ _ (by omega)
          | exact parse_fencedcode_pool cfg _ _ _ _ _ m (by omega)
          | exact parse_table_pool cfg m hm fuel _ _ _ _ _ (by omega)
          | exact ih_bq _ _ _ _ _ (by omega)
          | exact parse_blockcode_pool cfg _ _ _ _ _ m (by omega)
          | exact ih_ls _ _ _ _ _ _ (by omega)
          | exact parse_paragraph_pool cfg m hm fuel _ _ _ _ _ (by omega)
    -- parseBlockLoop
    · intro d pos size beg ob s hdep
      simp only [parseBlockLoop]
      repeat' split
      all_goals
        first
          | exact PoolOK.refl
          | exact pool_step_loop (ih_step _ _ _ _ _ hdep)
              (fun h2 => ih_loop _ _ _ _ _ _ h2) hdep
    -- parse_blockquote
    · intro d pos size ob s hdep
      simp only [parse_blockquote]
      exact pool_pushB_parse_popB (ih_pb _ _ _ _ _) (by omega)
    -- parse_listitem
    · intro d pos size flags ob s hdep
      simp only [parse_listitem]
      repeat' split
      all_goals
        first
          | exact PoolOK.refl
          | exact pool_push2s_pop2 (ih_pb _ _ _ _ _) (by omega)
          | exact pool_push2s_pop2 (hpi _ _ _ _ _) (by omega)
          | exact pool_push2s_pop2 ((ih_pb _ _ _ _ _).trans (ih_pb _ _ _ _ _))
              (by omega)
          | exact pool_push2s_pop2 ((hpi _ _ _ _ _).trans (ih_pb _ _ _ _ _))
              (by omega)
    -- parseListLoop
    · intro d pos size i flags work s hdep
      simp only [parseListLoop]
      repeat' split
      all_goals
        first
          | exact PoolOK.refl
          | exact ih_li _ _ _ _ _ _ hdep
          | exact pool_seq (ih_li _ _ _ _ _ _ hdep)
              (fun e1 e2 => ih_ll _ _ _ _ _ _ _ (by omega))
    -- parse_list
    · intro d pos size flags ob s hdep
      simp only [parse_list]
      exact pool_pushB_parse_popB
        (ih_ll _ _ _ _ _ _ _ (by simp only [newbufBlock]; omega)) (by omega)

/-- `parse_block` balances the pools from any entry state (the first
conjunct of `blockPool`, restated for convenient use). -/
theorem parse_block_pool (cfg : MDConfig) (m : Nat)
    (hm : cfg.maxNesting + 4 ≤ m) (fuel : Nat) (d : Buf) (pos size : Nat)
    (ob : Buf) (s : PState) :
    PoolOK m s (parse_block cfg fuel d pos size ob s).2 :=
  (blockPool cfg m hm fuel).1 d pos size ob s

/-- `parse_footnote_def` balances the pools: one SPAN acquire around a
balanced `parse_block`. -/
theorem parse_footnote_def_pool (cfg : MDConfig) (m : Nat)
    (hm : cfg.maxNesting + 4 ≤ m) (fuel : Nat) (contents : Buf) (num : Nat)
    (ob : Buf) (s : PState) (h : s.spanSize + s.blockSize + 1 ≤ m) :
    PoolOK m s (parse_footnote_def cfg fuel contents num ob s).2 := by
  simp only [parse_footnote_def]
  exact pool_push_parse_pop (parse_block_pool cfg m hm fuel _ _ _ _ _)
    (by omega)

/-- The footnote fold of `parse_footnote_list` balances the pools. -/
theorem footnote_fold_pool (cfg : MDConfig) (m : Nat)
    (hm : cfg.maxNesting + 4 ≤ m) (fuel : Nat) :
    ∀ (l : List Nat) (acc : Buf × PState),
      acc.2.spanSize + acc.2.blockSize + 1 ≤ m →
      PoolOK m acc.2 (l.foldl
        (fun (acc : Buf × PState) idx =>
          let fr := acc.2.fnFound.getD idx fnDefault
          parse_footnote_def cfg fuel fr.contents fr.num acc.1 acc.2)
        acc).2
  | [], acc => by
    intro h
    simp only [List.foldl]
    exact PoolOK.refl
  | idx :: l, acc => by
    intro h
    simp only [List.foldl]
    exact pool_seq (parse_footnote_def_pool cfg m hm fuel _ _ _ _ (by omega))
      (fun e1 e2 => footnote_fold_pool cfg m hm fuel l _ (by omega))

/-- `parse_footnote_list` balances the pools. -/
theorem parse_footnote_list_pool (cfg : MDConfig) (m : Nat)
    (hm : cfg.maxNesting + 4 ≤ m) (fuel : Nat) (ob : Buf) (s : PState)
    (h : s.spanSize + s.blockSize + 2 ≤ m) :
    PoolOK m s (parse_footnote_list cfg fuel ob s).2 := by
  simp only [parse_footnote_list]
  split
  · exact PoolOK.refl
  · exact pool_pushB_parse_popB
      (footnote_fold_pool cfg m hm fuel s.fnUsed ([], newbufBlock s)
        (by simp only [newbufBlock]; omega))
      (by omega)

/-- A balanced parse step starting from empty pools ends with empty
pools. -/
theorem pool_final_zero {m : Nat} {s t : PState} (h : PoolOK m s t)
    (h0 : s.spanSize = 0) (h0b : s.blockSize = 0) :
    t.spanSize = 0 ∧ t.blockSize = 0 :=
  ⟨h.1.trans h0, h.2.1.trans h0b⟩

/-- C5: for every input document and every renderer callback set, after
`hoedown_markdown_render` returns, the tops of both the SPAN and the
BLOCK work-buffer pools are 0: every pool acquire was matched by a
release on every parse path. -/
theorem claim_C5 (cfg : MDConfig) (fuel : Nat) (doc ob : Buf) :
    (hoedown_markdown_render cfg fuel doc ob).2.spanSize = 0 ∧
    (hoedown_markdown_render cfg fuel doc ob).2.blockSize = 0 := by
  simp only [hoedown_markdown_render]
  repeat' split
  all_goals
    first
      | exact ⟨rfl, rfl⟩
      | exact pool_final_zero (parse_block_pool _ _ le_rfl _ _ _ _ _ _)
          rfl rfl
      | exact pool_final_zero
          (parse_footnote_list_pool _ _ le_rfl _ _ _
            (Nat.le_add_left 2 _)) rfl rfl
      | exact pool_final_zero
          (pool_seq (parse_block_pool _ _ le_rfl _ _ _ _ _ _)
            (fun e1 e2 => parse_footnote_list_pool _ _ le_rfl _ _ _
              (by rw [e1, e2]; show 0 + 0 + 2 ≤ _; omega)))
          rfl rfl

/-- A balanced parse step starting with ghost peak 0 keeps the peak at
most `m`. -/
theorem pool_final_bound {m : Nat} {s t : PState} (h : PoolOK m s t)
    (h0 : s.maxSeen = 0) : t.maxSeen ≤ m := by
  have hh := h.2.2
  rw [h0] at hh
  omega

/-- A concrete renderer for counterexamples: `normal_text` appends, and
`superscript` renders truthily. -/
def cexRenderer : Renderer :=
  { normal_text := some (fun ob t => ob ++ t),
    superscript := some (fun ob c => (ob ++ c, true)) }

/-- A scanner that never matches. -/
def cexScanner : Scanner := fun _ _ _ _ => (0, 0, [])

/-- A concrete parser configuration with `max_nesting = 1` and the
SUPERSCRIPT extension. -/
def cexCfg : MDConfig :=
  hoedown_markdown_new { superscript := true } 1 cexRenderer
    cexScanner cexScanner cexScanner (fun _ => Option.none)

/-- C3 (amended): the combined pool depth is compared with
`max_nesting` only on entry to `parse_inline` and `parse_block` — both
return their input unchanged (silently, no output) when the depth
already exceeds `max_nesting` — and handlers may acquire up to 4
buffers beyond the entry depth before the next check, so over a whole
`hoedown_markdown_render` the peak combined depth is bounded by
`max_nesting + 4`, not by `max_nesting`. -/
theorem claim_C3 (cfg : MDConfig) (fuel : Nat) (d : Buf) (pos size : Nat)
    (ob : Buf) (s : PState) (doc out : Buf)
    (hg : s.spanSize + s.blockSize > cfg.maxNesting) :
    parse_inline cfg (fuel + 1) d pos size ob s = (ob, s) ∧
    parse_block cfg (fuel + 1) d pos size ob s = (ob, s) ∧
    (hoedown_markdown_render cfg fuel doc out).2.maxSeen ≤
      cfg.maxNesting + 4 := by
  refine ⟨?_, ?_, ?_⟩
  · simp only [parse_inline, if_pos hg]
  · simp only [parse_block, if_pos hg]
  · simp only [hoedown_markdown_render]
    repeat' split
    all_goals
      first
        | exact Nat.zero_le _
        | exact pool_final_bound (parse_block_pool _ _ (by exact le_rfl) _ _ _ _ _ _) rfl
        | exact pool_final_bound
            (parse_footnote_list_pool _ _ (by exact le_rfl) _ _ _ (Nat.le_add_left 2 _))
            rfl
        | exact pool_final_bound
            (pool_seq (parse_block_pool _ _ (by exact le_rfl) _ _ _ _ _ _)
              (fun e1 e2 => parse_footnote_list_pool _ _ (by exact le_rfl) _ _ _
                (by rw [e1, e2]; exact Nat.le_add_left 2 _)))
            rfl

/-- Witness for `claim_C3` at a concrete depth-2 state with
`max_nesting = 1`. -/
theorem claim_C3_witness :
    (({ spanSize := 2 } : PState).spanSize +
       ({ spanSize := 2 } : PState).blockSize > cexCfg.maxNesting) ∧
    (parse_inline cexCfg (0 + 1) [] 0 0 [] { spanSize := 2 } =
       ([], { spanSize := 2 }) ∧
     parse_block cexCfg (0 + 1) [] 0 0 [] { spanSize := 2 } =
       ([], { spanSize := 2 }) ∧
     (hoedown_markdown_render cexCfg 0 [] []).2.maxSeen ≤
       cexCfg.maxNesting + 4) :=
  ⟨by decide, claim_C3 cexCfg 0 [] 0 0 [] { spanSize := 2 } [] [] (by decide)⟩

set_option allowUnsafeReducibility true in
attribute [semireducible] firstIdxGo firstIdx shrinkIdx shrinkIdxAt unscapeGo unscape_text trimSpacesEnd delimCloseScanGo delimCloseScan mailScanGo mailScan tagAutolinkEndGo tagAutolinkEnd emphBacktickScanGo emphBacktickScan emphScanRecordGo emphScanRecord linkBracketScanGo linkBracketScan linkInlineEndGo linkInlineEnd linkTitleScanGo linkTitleScan is_empty is_hrule prefix_codefence is_codefence is_atxheader is_headerline is_next_headerline prefix_quote prefix_code prefix_oli prefix_uli htmlblock_end_tag htmlblockEndLoop htmlblock_end htmlHrCase parse_htmlblock trimNewlinesEnd fencedCodeLoop blockCodeLoop tableUnderlineLoopGo tableUnderlineLoop paragraphScan bqLoop listItemLoop

set_option allowUnsafeReducibility true in
attribute [semireducible] parse_inline parseInlineLoop dispatchChar char_emphasis parse_emph1 parseEmph1Loop parse_emph2 parseEmph2Loop parse_emph3 parseEmph3Loop charLinkFinish charLinkBuild charLinkInline charLinkRef charLinkShortcut char_link char_superscript

/-- C3 counterexample: with `max_nesting = 1`, parsing the inline input
`^^a` from empty pools drives the combined number of in-use pool
buffers to 2 (the outer `char_superscript` acquires a buffer *before*
the nested `parse_inline` guard runs, and the nested `char_superscript`
acquires a second one), so the combined depth does exceed
`max_nesting`. -/
theorem claim_C3_counterexample :
    cexCfg.maxNesting = 1 ∧
    (parse_inline cexCfg 10 [94, 94, 97] 0 3 [] {}).2.maxSeen = 2 :=
  ⟨rfl, by decide⟩


/-! ## Renderer configurations for the remaining claims -/

/-- A renderer whose `normal_text` appends and whose `linebreak` and
`codespan` callbacks decline to render (pure falsy callbacks). -/
def rend6 : Renderer :=
  { normal_text := some (fun ob t => ob ++ t),
    linebreak := some (fun ob => (ob, false)),
    codespan := some (fun ob _ => (ob, false)) }

/-- Parser configuration over `rend6`. -/
def cfg6 : MDConfig :=
  hoedown_markdown_new {} 16 rend6 cexScanner cexScanner cexScanner
    (fun _ => Option.none)

/-- A renderer with only an appending `normal_text`. -/
def rend7 : Renderer := { normal_text := some (fun ob t => ob ++ t) }

/-- Parser configuration over `rend7`. -/
def cfg7 : MDConfig :=
  hoedown_markdown_new {} 16 rend7 cexScanner cexScanner cexScanner
    (fun _ => Option.none)

/-- A renderer whose `codespan` records the content it is given. -/
def rend8 : Renderer :=
  { normal_text := some (fun ob t => ob ++ t),
    codespan := some (fun ob c => (ob ++ c.getD [], true)) }

/-- Parser configuration over `rend8`. -/
def cfg8 : MDConfig :=
  hoedown_markdown_new {} 16 rend8 cexScanner cexScanner cexScanner
    (fun _ => Option.none)

/-- A renderer whose `link` callback emits the link content. -/
def rend4 : Renderer :=
  { normal_text := some (fun ob t => ob ++ t),
    link := some (fun ob _ _ c => (ob ++ c.getD [], true)) }

/-- Parser configuration over `rend4`, with one stored reference
`y → u`. -/
def cfg4 : MDConfig :=
  { hoedown_markdown_new {} 16 rend4 cexScanner cexScanner cexScanner
      (fun _ => Option.none)
    with refs := add_link_ref emptyRefs [121] [117] Option.none }

/-! ## C4: the `in_link_body` flag -/

theorem charLinkFinish_ilb (cfg : MDConfig) (fuel : Nat) (d : Buf)
    (pos txt_e : Nat) (is_img : Bool) (org i : Nat)
    (lnk ttl : Option Buf) (ob : Buf) (s : PState) :
    (charLinkFinish cfg fuel d pos txt_e is_img org i lnk ttl ob
       s).2.2.inLinkBody = s.inLinkBody ∨
    (charLinkFinish cfg fuel d pos txt_e is_img org i lnk ttl ob
       s).2.2.inLinkBody = false := by
  cases fuel with
  | zero => left; rfl
  | succ fuel =>
    cases lnk <;> simp only [charLinkFinish] <;> repeat' split
    all_goals first | (left; rfl) | (right; rfl)

theorem charLinkBuild_ilb (cfg : MDConfig) (fuel : Nat) (d : Buf)
    (pos txt_e : Nat) (is_img : Bool) (org : Nat) (lk : Nat × Nat)
    (tb te inext : Nat) (ob : Buf) (s : PState) :
    (charLinkBuild cfg fuel d pos txt_e is_img org lk tb te inext ob
       s).2.2.inLinkBody = s.inLinkBody ∨
    (charLinkBuild cfg fuel d pos txt_e is_img org lk tb te inext ob
       s).2.2.inLinkBody = false := by
  cases fuel with
  | zero => left; rfl
  | succ fuel =>
    simp only [charLinkBuild]
    repeat' split
    all_goals exact charLinkFinish_ilb cfg fuel _ _ _ _ _ _ _ _ _ _

theorem charLinkInline_ilb (cfg : MDConfig) (fuel : Nat) (d : Buf)
    (pos size txt_e : Nat) (is_img : Bool) (org i : Nat)
    (ob : Buf) (s : PState) :
    (charLinkInline cfg fuel d pos size txt_e is_img org i ob
       s).2.2.inLinkBody = s.inLinkBody ∨
    (charLinkInline cfg fuel d pos size txt_e is_img org i ob
       s).2.2.inLinkBody = false := by
  cases fuel with
  | zero => left; rfl
  | succ fuel =>
    simp only [charLinkInline]
    repeat' split
    all_goals
      first
        | (left; rfl)
        | exact charLinkBuild_ilb cfg fuel _ _ _ _ _ _ _ _ _ _ _

theorem charLinkRef_ilb (cfg : MDConfig) (fuel : Nat) (d : Buf)
    (pos size txt_e : Nat) (is_img : Bool) (org : Nat) (tnl : Bool)
    (i : Nat) (ob : Buf) (s : PState) :
    (charLinkRef cfg fuel d pos size txt_e is_img org tnl i ob
       s).2.2.inLinkBody = s.inLinkBody ∨
    (charLinkRef cfg fuel d pos size txt_e is_img org tnl i ob
       s).2.2.inLinkBody = false := by
  cases fuel with
  | zero => left; rfl
  | succ fuel =>
    simp only [charLinkRef]
    repeat' split
    all_goals
      first
        | (left; rfl)
        | exact charLinkFinish_ilb cfg fuel _ _ _ _ _ _ _ _ _ _

theorem charLinkShortcut_ilb (cfg : MDConfig) (fuel : Nat) (d : Buf)
    (pos txt_e : Nat) (is_img : Bool) (org : Nat) (tnl : Bool)
    (ob : Buf) (s : PState) :
    (charLinkShortcut cfg fuel d pos txt_e is_img org tnl ob
       s).2.2.inLinkBody = s.inLinkBody ∨
    (charLinkShortcut cfg fuel d pos txt_e is_img org tnl ob
       s).2.2.inLinkBody = false := by
  cases fuel with
  | zero => left; rfl
  | succ fuel =>
    simp only [charLinkShortcut]
    repeat' split
    all_goals
      first
        | (left; rfl)
        | exact charLinkFinish_ilb cfg fuel _ _ _ _ _ _ _ _ _ _

theorem charLinkFootnote_ilb (cfg : MDConfig) (d : Buf)
    (pos txt_e org : Nat) (ob : Buf) (s : PState) :
    (charLinkFootnote cfg d pos txt_e org ob s).2.2.inLinkBody =
      s.inLinkBody := by
  simp only [charLinkFootnote]
  repeat' split
  all_goals rfl

/-- C4 (amended): `char_link` does not save and restore `in_link_body`;
on return the flag is either untouched (non-rendering paths) or cleared
to 0 (after parsing the display text) — in particular a `char_link`
entered with the flag set can exit with it cleared, losing the
suppression for the rest of the surrounding link body.  While the flag
is set, the `www`/`url`/`email` autolink handlers return 0 and produce
nothing, which is the suppression the flag exists for. -/
theorem claim_C4 (cfg : MDConfig) (fuel : Nat) (d : Buf)
    (pos off size : Nat) (ob : Buf) (s : PState)
    (hin : s.inLinkBody = true) :
    ((char_link cfg fuel d pos off size ob s).2.2.inLinkBody =
       s.inLinkBody ∨
     (char_link cfg fuel d pos off size ob s).2.2.inLinkBody = false) ∧
    char_autolink_www cfg d pos off size ob s = (0, ob, s) ∧
    char_autolink_url cfg d pos off size ob s = (0, ob, s) ∧
    char_autolink_email cfg d pos off size ob s = (0, ob, s) := by
  refine ⟨?_, ?_, ?_, ?_⟩
  · cases fuel with
    | zero => left; rfl
    | succ fuel =>
      simp only [char_link]
      repeat' split
      all_goals
        first
          | (left; rfl)
          | (rw [charLinkFootnote_ilb]; left; rfl)
          | exact charLinkInline_ilb cfg fuel _ _ _ _ _ _ _ _ _
          | exact charLinkRef_ilb cfg fuel _ _ _ _ _ _ _ _ _ _
          | exact charLinkShortcut_ilb cfg fuel _ _ _ _ _ _ _ _
  · simp only [char_autolink_www]
    repeat' split
    all_goals simp_all
  · simp only [char_autolink_url]
    repeat' split
    all_goals simp_all
  · simp only [char_autolink_email]
    repeat' split
    all_goals simp_all

/-- C4 counterexample: a reference link `[y]` resolved while
`in_link_body` is already set exits with the flag cleared (0), not
restored to its entry value. -/
theorem claim_C4_counterexample :
    (char_link cfg4 20 [91, 121, 93] 0 0 3 []
       { inLinkBody := true }).1 = 3 ∧
    (char_link cfg4 20 [91, 121, 93] 0 0 3 []
       { inLinkBody := true }).2.2.inLinkBody = false := by decide

/-- Witness for `claim_C4` at a concrete flagged state. -/
theorem claim_C4_witness :
    (({ inLinkBody := true } : PState).inLinkBody = true) ∧
    (((char_link cfg4 5 [] 0 0 0 []
         { inLinkBody := true }).2.2.inLinkBody =
       ({ inLinkBody := true } : PState).inLinkBody ∨
      (char_link cfg4 5 [] 0 0 0 []
         { inLinkBody := true }).2.2.inLinkBody = false) ∧
     char_autolink_www cfg4 [] 0 0 0 [] { inLinkBody := true } =
       (0, [], { inLinkBody := true }) ∧
     char_autolink_url cfg4 [] 0 0 0 [] { inLinkBody := true } =
       (0, [], { inLinkBody := true }) ∧
     char_autolink_email cfg4 [] 0 0 0 [] { inLinkBody := true } =
       (0, [], { inLinkBody := true })) :=
  ⟨rfl, claim_C4 cfg4 5 [] 0 0 0 [] { inLinkBody := true } rfl⟩

/-! ## C6: falsy renderer callbacks -/

/-- C6 (amended): when a pure callback declines (`codespan` here), the
handler returns 0 consumed, the untouched output buffer and the
untouched state, so the scanner retries the byte as normal text; but
`char_linebreak` trims the trailing spaces from the output *before*
asking the callback, and a declined linebreak keeps that trim (only
consumed count and parser state are unwound). -/
theorem claim_C6 (cfg : MDConfig)
    (hcs : cfg.rndr.codespan = some (fun ob _ => (ob, false)))
    (hlb : cfg.rndr.linebreak = some (fun ob => (ob, false)))
    (d : Buf) (pos off size : Nat) (ob : Buf) (s : PState) :
    char_codespan cfg d pos off size ob s = (0, ob, s) ∧
    (char_linebreak cfg d pos off size ob s).1 = 0 ∧
    (char_linebreak cfg d pos off size ob s).2.2 = s ∧
    ((char_linebreak cfg d pos off size ob s).2.1 = ob ∨
     (char_linebreak cfg d pos off size ob s).2.1 = trimSpacesEnd ob) := by
  refine ⟨?_, ?_, ?_, ?_⟩
  · simp only [char_codespan, hcs]
    repeat' split
    all_goals first | rfl | simp_all
  · simp only [char_linebreak, hlb]
    split
    · rfl
    · rfl
  · simp only [char_linebreak, hlb]
    split
    · rfl
    · rfl
  · simp only [char_linebreak, hlb]
    split
    · left; rfl
    · right; rfl

/-- C6 counterexample: with a falsy `linebreak` callback and appending
`normal_text`, the inline input `a␣␣\nb` renders as `a\nb` — the two
trailing spaces are gone even though the callback declined, so the
output buffer is *not* left exactly as it was. -/
theorem claim_C6_counterexample :
    (parse_inline cfg6 10 [97, 32, 32, 10, 98] 0 5 [] {}).1 =
      [97, 10, 98] ∧
    [97, 10, 98] ≠ [97, 32, 32, 10, 98] := by decide

/-- Witness for `claim_C6` over `cfg6` (whose falsy callbacks satisfy
the hypotheses definitionally). -/
theorem claim_C6_witness :
    cfg6.rndr.codespan = some (fun ob _ => (ob, false)) ∧
    (char_codespan cfg6 [96, 97, 96] 0 0 3 [] {} = (0, [], {}) ∧
     (char_linebreak cfg6 [97, 32, 32, 10] 3 3 1 [97, 32, 32] {}).1 = 0 ∧
     (char_linebreak cfg6 [97, 32, 32, 10] 3 3 1 [97, 32, 32] {}).2.2 = {} ∧
     ((char_linebreak cfg6 [97, 32, 32, 10] 3 3 1 [97, 32, 32] {}).2.1 =
        [97, 32, 32] ∨
      (char_linebreak cfg6 [97, 32, 32, 10] 3 3 1 [97, 32, 32] {}).2.1 =
        trimSpacesEnd [97, 32, 32])) :=
  ⟨rfl, claim_C6 cfg6 rfl rfl [96, 97, 96] 0 0 3 [] {} |>.1,
   (claim_C6 cfg6 rfl rfl [97, 32, 32, 10] 3 3 1 [97, 32, 32] {}).2.1,
   (claim_C6 cfg6 rfl rfl [97, 32, 32, 10] 3 3 1 [97, 32, 32] {}).2.2.1,
   (claim_C6 cfg6 rfl rfl [97, 32, 32, 10] 3 3 1 [97, 32, 32] {}).2.2.2⟩

/-! ## C7: backslash escapes -/

/-- C7 (amended): for a byte `b` in the escape set, `\b` is delivered
as the single byte `b` through `normal_text` with 2 bytes consumed; for
`b` outside the set *and nonzero* nothing is consumed (the scanner then
emits the backslash verbatim).  The NUL byte is the exception the
original claim misses: C `strchr` finds the terminator, so `\␀` is
treated as an escape. -/
theorem claim_C7 (cfg : MDConfig) (nt : Buf → Buf → Buf)
    (hnt : cfg.rndr.normal_text = some nt) (d : Buf)
    (pos off size : Nat) (ob : Buf) (s : PState) (b : Nat)
    (hsz : 1 < size) (hb1 : byteAt d (pos + 1) = b) :
    (escape_chars.contains b = true →
      char_escape cfg d pos off size ob s = (2, nt ob [b], s)) ∧
    (escape_chars.contains b = false → b ≠ 0 →
      char_escape cfg d pos off size ob s = (0, ob, s)) := by
  constructor
  · intro hc
    simp [char_escape, strchrFound, hnt, hb1, hsz, hc]
    intro _
    simpa using hc
  · intro hc h0
    simp [char_escape, strchrFound, hnt, hb1, hsz, hc, h0]
    simpa using hc

/-- C7 counterexample: NUL is not in the escape set, yet `\␀` is
escaped — both bytes are consumed and the NUL is emitted as normal
text; the backslash is *not* emitted verbatim. -/
theorem claim_C7_counterexample :
    escape_chars.contains 0 = false ∧
    (parse_inline cfg7 10 [92, 0] 0 2 [] {}).1 = [0] := by decide

/-- Witness for `claim_C7` on `\*` (in the set) and `\q` (not in the
set) under `cfg7`. -/
theorem claim_C7_witness :
    cfg7.rndr.normal_text = some (fun ob t => ob ++ t) ∧
    (1 : Nat) < 2 ∧ byteAt [92, 42] (0 + 1) = 42 ∧
    ((escape_chars.contains 42 = true →
       char_escape cfg7 [92, 42] 0 0 2 [] {} =
         (2, (fun (ob t : Buf) => ob ++ t) [] [42], {})) ∧
     (escape_chars.contains 42 = false → (42 : Nat) ≠ 0 →
       char_escape cfg7 [92, 42] 0 0 2 [] {} = (0, [], {}))) :=
  ⟨rfl, by decide, by decide,
   claim_C7 cfg7 (fun ob t => ob ++ t) rfl [92, 42] 0 0 2 [] {} 42
     (by decide) (by decide)⟩

/-! ## C10: empty superscripts -/

/-- C10: with a superscript callback present, `^()` (parenthesised,
empty) is consumed as 3 bytes without invoking any callback and
without emitting anything, while `^` followed by whitespace is not
consumed at all (the scanner then emits the caret verbatim). -/
theorem claim_C10 (cfg : MDConfig) (fuel : Nat) (d d2 : Buf)
    (pos pos2 off off2 : Nat) (ob ob2 : Buf) (s s2 : PState)
    (hsup : cfg.rndr.superscript.isSome = true)
    (h1 : byteAt d (pos + 1) = 40) (h2 : byteAt d (pos + 2) = 41)
    (h3 : isspace (byteAt d2 (pos2 + 1)) = true) :
    char_superscript cfg (fuel + 1) d pos off 3 ob s = (3, ob, s) ∧
    char_superscript cfg (fuel + 1) d2 pos2 off2 2 ob2 s2 =
      (0, ob2, s2) := by
  obtain ⟨sp, hsp⟩ := Option.isSome_iff_exists.mp hsup
  have h40 : (byteAt d2 (pos2 + 1) == 40) = false := by
    have h3b := h3
    simp only [isspace, Bool.or_eq_true, beq_iff_eq] at h3b
    rcases h3b with h | h <;> simp [h]
  constructor
  · simp [char_superscript, hsp, h1, h2, firstIdx, firstIdxGo]
  · simp [char_superscript, hsp, h40, h3, firstIdx, firstIdxGo]

/-- Witness for `claim_C10` over `cfg9cex := cexCfg` at `^()` and
`^␣`. -/
theorem claim_C10_witness :
    cexCfg.rndr.superscript.isSome = true ∧
    byteAt [94, 40, 41] (0 + 1) = 40 ∧ byteAt [94, 40, 41] (0 + 2) = 41 ∧
    isspace (byteAt [94, 32] (0 + 1)) = true ∧
    (char_superscript cexCfg (9 + 1) [94, 40, 41] 0 0 3 [] {} =
       (3, [], {}) ∧
     char_superscript cexCfg (9 + 1) [94, 32] 0 0 2 [] {} =
       (0, [], {})) :=
  ⟨by decide, by decide, by decide, by decide,
   claim_C10 cexCfg 9 [94, 40, 41] [94, 32] 0 0 0 0 [] [] {} {}
     (by decide) (by decide) (by decide) (by decide)⟩

/-! ## C9: inline parsing is the identity on inactive input -/

theorem firstIdxGo_all_false (p : Nat → Bool) (stop : Nat) :
    ∀ (gas i : Nat), (∀ j, i ≤ j → j < stop → p j = false) →
      firstIdxGo p stop i gas = stop
  | 0, i => fun _ => rfl
  | gas + 1, i => by
    intro h
    simp only [firstIdxGo]
    split
    · rename_i hlt
      rw [h i (Nat.le_refl i) hlt]
      simp only [Bool.false_eq_true, if_false]
      exact firstIdxGo_all_false p stop gas (i + 1)
        (fun j hj hjs => h j (by omega) hjs)
    · rfl

theorem firstIdx_all_false (p : Nat → Bool) (i stop : Nat)
    (h : ∀ j, i ≤ j → j < stop → p j = false) :
    firstIdx p i stop = stop :=
  firstIdxGo_all_false p stop (stop - i) i h

/-- C9: on a span whose bytes are all inactive (class 0 in the
active-character table), with an appending `normal_text` and the
combined pool depth within the nesting bound, `parse_inline` appends
exactly the input bytes and leaves the state untouched. -/
theorem claim_C9 (cfg : MDConfig) (fuel : Nat) (d : Buf)
    (start size : Nat) (ob : Buf) (s : PState)
    (hnt : cfg.rndr.normal_text = some (fun ob t => ob ++ t))
    (hact : ∀ j, j < size → cfg.active (byteAt d (start + j)) = MDChar.none)
    (hdep : s.spanSize + s.blockSize ≤ cfg.maxNesting) :
    parse_inline cfg (fuel + 2) d start size ob s =
      (ob ++ slice d start size, s) := by
  simp only [parse_inline]
  rw [if_neg (by omega)]
  simp only [parseInlineLoop]
  split
  · rw [firstIdx_all_false _ _ _
      (fun j _ hj => by simp [hact j hj]), hnt]
    rw [if_pos (Nat.le_refl size)]
    rfl
  · rename_i hsz
    have hz : size = 0 := by omega
    subst hz
    simp [slice]

/-- Witness for `claim_C9`: `ab` contains no active characters under
`cfg7`, so it round-trips. -/
theorem claim_C9_witness :
    cfg7.rndr.normal_text = some (fun ob t => ob ++ t) ∧
    (∀ j, j < 2 → cfg7.active (byteAt [97, 98] (0 + j)) = MDChar.none) ∧
    ({} : PState).spanSize + ({} : PState).blockSize ≤ cfg7.maxNesting ∧
    parse_inline cfg7 (8 + 2) [97, 98] 0 2 [] {} =
      ([] ++ slice [97, 98] 0 2, {}) :=
  ⟨rfl, by decide, by decide,
   claim_C9 cfg7 8 [97, 98] 0 2 [] {} rfl (by decide) (by decide)⟩

/-- The forward scan stops at the first index satisfying `p`. -/
theorem firstIdx_spec (p : Nat → Bool) (stop m : Nat) (hm : m < stop)
    (hpm : p m = true) :
    ∀ (i : Nat), i ≤ m → (∀ j, i ≤ j → j < m → p j = false) →
      firstIdx p i stop = m
  | i => by
    intro him hbelow
    have his : i < stop := by omega
    have hsub : stop - i = (stop - (i + 1)) + 1 := by omega
    simp only [firstIdx]
    rw [hsub]
    simp only [firstIdxGo]
    rw [if_pos his]
    by_cases hi : i = m
    · subst hi
      rw [hpm]
      simp
    · rw [hbelow i (Nat.le_refl i) (by omega)]
      simp only [Bool.false_eq_true, if_false]
      exact firstIdx_spec p stop m hm hpm (i + 1) (by omega)
        (fun j hj hjm => hbelow j (by omega) hjm)
termination_by i => m - i

/-- The backward scan stops at the last position below which `p`
fails. -/
theorem shrinkIdx_spec (p : Nat → Bool) (lo m : Nat) :
    ∀ (e : Nat), lo ≤ m → m ≤ e →
      (∀ j, m ≤ j → j < e → p j = true) →
      (m = lo ∨ p (m - 1) = false) →
      shrinkIdx p lo e = m
  | 0 => by
    intro h1 h2 _ _
    simp only [shrinkIdx]
    omega
  | e + 1 => by
    intro h1 h2 habove hstop
    simp only [shrinkIdx]
    by_cases he : m = e + 1
    · subst he
      rcases hstop with h | h
      · rw [if_neg (by omega)]
      · split
        · rw [show p e = false from by simpa using h]
          simp
        · rfl
    · rw [if_pos (by omega), habove e (by omega) (by omega)]
      simp only [if_true]
      exact shrinkIdx_spec p lo m e (by omega) (by omega)
        (fun j hj hje => habove j hj (by omega))
        (by tauto)

/-- The closing-delimiter scan with `nb = 1` stops just past the first
backtick. -/
theorem delimScanGo_one (d : Buf) (pos size m : Nat)
    (htick : (byteAt d (pos + m) == 96) = true) (hm : m < size) :
    ∀ (gas e0 : Nat), e0 ≤ m → m - e0 < gas →
      (∀ k, e0 ≤ k → k < m → (byteAt d (pos + k) == 96) = false) →
      delimCloseScanGo d pos size 96 1 0 e0 gas = (m + 1, 1)
  | 0, e0 => by
    intro _ h2 _
    omega
  | gas + 1, e0 => by
    intro h1 h2 hno
    simp only [delimCloseScanGo]
    rw [if_pos ⟨by omega, by omega⟩]
    by_cases he : e0 = m
    · subst he
      rw [htick]
      simp only [if_true]
      cases gas with
      | zero => rfl
      | succ g =>
        simp only [delimCloseScanGo]
        rw [if_neg (by omega)]
    · rw [hno e0 (by omega) (by omega)]
      simp only [Bool.false_eq_true, if_false]
      exact delimScanGo_one d pos size m htick hm gas (e0 + 1) (by omega)
        (by omega) (fun k hk hkm => hno k (by omega) hkm)

theorem delimScan_one (d : Buf) (pos size m : Nat)
    (htick : (byteAt d (pos + m) == 96) = true) (hm : m < size)
    (h1m : 1 ≤ m)
    (hno : ∀ k, 1 ≤ k → k < m → (byteAt d (pos + k) == 96) = false) :
    delimCloseScan d pos size 96 1 0 1 = (m + 1, 1) :=
  delimScanGo_one d pos size m htick hm (size + 1) 1 h1m (by omega) hno

/-- The code-span input family `` ` ``+spaces+core+spaces+`` ` ``. -/
def cspanBuf (a : Nat) (core : Buf) (b : Nat) : Buf :=
  [96] ++ List.replicate a 32 ++ core ++ List.replicate b 32 ++ [96]

theorem cspanBuf_eq (a : Nat) (core : Buf) (b : Nat) :
    cspanBuf a core b =
      96 :: (List.replicate a 32 ++ (core ++ (List.replicate b 32 ++ [96]))) := by
  simp [cspanBuf]

theorem cspanBuf_length (a : Nat) (core : Buf) (b : Nat) :
    (cspanBuf a core b).length = a + List.length core + b + 2 := by
  rw [cspanBuf_eq]; simp; omega

theorem cspanBuf_at0 (a : Nat) (core : Buf) (b : Nat) :
    byteAt (cspanBuf a core b) 0 = 96 := by
  rw [cspanBuf_eq]; rfl

theorem cspanBuf_left (a : Nat) (core : Buf) (b : Nat) (j : Nat)
    (h1 : 1 ≤ j) (h2 : j ≤ a) : byteAt (cspanBuf a core b) j = 32 := by
  obtain ⟨j', rfl⟩ : ∃ j', j = j' + 1 := ⟨j - 1, by omega⟩
  rw [cspanBuf_eq]
  simp only [byteAt, List.getD_eq_getElem?_getD, List.getElem?_cons_succ]
  rw [List.getElem?_append_left (by simp; omega)]
  simp only [List.getElem?_replicate]
  rw [if_pos (by omega : j' < a)]
  rfl

theorem cspanBuf_mid (a : Nat) (core : Buf) (b : Nat) (j : Nat)
    (h : j < core.length) :
    byteAt (cspanBuf a core b) (1 + a + j) = byteAt core j := by
  obtain ⟨k, hk⟩ : ∃ k, 1 + a + j = k + 1 := ⟨a + j, by omega⟩
  rw [cspanBuf_eq, hk]
  simp only [byteAt, List.getD_eq_getElem?_getD, List.getElem?_cons_succ]
  rw [List.getElem?_append_right (by simp; omega),
      List.getElem?_append_left (by simp; omega)]
  congr 2
  simp
  omega

theorem cspanBuf_right (a : Nat) (core : Buf) (b : Nat) (j : Nat)
    (h : j < b) :
    byteAt (cspanBuf a core b) (1 + a + core.length + j) = 32 := by
  obtain ⟨k, hk⟩ : ∃ k, 1 + a + core.length + j = k + 1 :=
    ⟨a + core.length + j, by omega⟩
  rw [cspanBuf_eq, hk]
  simp only [byteAt, List.getD_eq_getElem?_getD, List.getElem?_cons_succ]
  rw [List.getElem?_append_right (by simp; omega),
      List.getElem?_append_right (by simp; omega),
      List.getElem?_append_left (by simp; omega)]
  simp only [List.getElem?_replicate]
  rw [if_pos (by simp; omega)]
  rfl

theorem cspanBuf_tick (a : Nat) (core : Buf) (b : Nat) :
    byteAt (cspanBuf a core b) (1 + a + core.length + b) = 96 := by
  obtain ⟨k, hk⟩ : ∃ k, 1 + a + core.length + b = k + 1 :=
    ⟨a + core.length + b, by omega⟩
  rw [cspanBuf_eq, hk]
  simp only [byteAt, List.getD_eq_getElem?_getD, List.getElem?_cons_succ]
  rw [List.getElem?_append_right (by simp; omega),
      List.getElem?_append_right (by simp; omega),
      List.getElem?_append_right (by simp; omega)]
  have : k - a - core.length - b = 0 := by omega
  simp [this]

theorem cspanBuf_drop (a : Nat) (core : Buf) (b : Nat) :
    ((cspanBuf a core b).drop (1 + a)).take core.length = core := by
  have h2 : cspanBuf a core b =
      ([96] ++ List.replicate a 32) ++ (core ++ (List.replicate b 32 ++ [96])) := by
    simp [cspanBuf]
  rw [h2]
  rw [show 1 + a = ([96] ++ List.replicate a 32 : Buf).length from by simp; omega]
  rw [List.drop_left, List.take_left]

/-- The content rule the claim asserts (one space stripped iff present
on both sides), written from the spec wording. -/
def claimCodespanContent (mid : Buf) : Buf :=
  if mid.head? == some 32 ∧ mid.getLast? == some 32 then
    (mid.drop 1).dropLast
  else mid

set_option maxHeartbeats 1000000 in
/-- C8 (amended): the code-span content is the bytes between the
delimiter runs with *all* leading and *all* trailing spaces stripped,
each side independently of the other — not one space stripped only when
present on both sides.  Shown for single-backtick spans over the family
`cspanBuf a core b` (`a` leading and `b` trailing spaces around a
space-free-edged, backtick-free `core`): the recorded content is
exactly `core` for every `a` and `b`. -/
theorem claim_C8 (cfg : MDConfig)
    (hcs : cfg.rndr.codespan = some (fun ob c => (ob ++ c.getD [], true)))
    (a : Nat) (core : Buf) (b : Nat) (off : Nat) (ob : Buf) (s : PState)
    (hne : core ≠ [])
    (hno96 : ∀ x ∈ core, x ≠ 96)
    (hhead : ∀ x, core.head? = some x → x ≠ 32)
    (hlast : ∀ x, core.getLast? = some x → x ≠ 32) :
    char_codespan cfg (cspanBuf a core b) 0 off
      (a + core.length + b + 2) ob s =
      (a + core.length + b + 2, ob ++ core, s) := by
  set d := cspanBuf a core b with hd
  set size := a + core.length + b + 2 with hsize
  have hlen1 : 1 ≤ core.length := List.length_pos.mpr hne
  have hc96 : ∀ j, j < core.length → byteAt core j ≠ 96 := by
    intro j hj
    have : byteAt core j ∈ core := by
      simp only [byteAt, List.getD_eq_getElem?_getD, List.getElem?_eq_getElem hj]
      exact List.getElem_mem hj
    exact hno96 _ this
  have hhead' : byteAt core 0 ≠ 32 := by
    apply hhead
    cases core with
    | nil => exact absurd rfl hne
    | cons c t => rfl
  have hlast' : byteAt core (core.length - 1) ≠ 32 := by
    apply hlast
    rw [List.getLast?_eq_getElem?]
    simp only [byteAt, List.getD_eq_getElem?_getD,
      List.getElem?_eq_getElem (show core.length - 1 < core.length by omega)]
    rfl
  have hA : ∀ k, 1 ≤ k → k ≤ a → byteAt d k = 32 :=
    fun k h1 h2 => cspanBuf_left a core b k h1 h2
  have hB : ∀ k, a + 1 ≤ k → k ≤ a + core.length →
      byteAt d k = byteAt core (k - 1 - a) := by
    intro k h1 h2
    have := cspanBuf_mid a core b (k - 1 - a) (by omega)
    rwa [show 1 + a + (k - 1 - a) = k from by omega] at this
  have hC : ∀ k, a + core.length + 1 ≤ k → k < size - 1 → byteAt d k = 32 := by
    intro k h1 h2
    have := cspanBuf_right a core b (k - 1 - a - core.length) (by omega)
    rwa [show 1 + a + core.length + (k - 1 - a - core.length) = k from by omega]
      at this
  have h96 : ∀ k, 1 ≤ k → k < size - 1 → byteAt d k ≠ 96 := by
    intro k h1 h2
    rcases le_or_lt k a with h | h
    · rw [hA k h1 h]; omega
    · rcases le_or_lt k (a + core.length) with h3 | h3
      · rw [hB k (by omega) h3]; exact hc96 _ (by omega)
      · rw [hC k (by omega) h2]; omega
  have htick : (byteAt d (0 + (size - 1)) == 96) = true := by
    rw [show 0 + (size - 1) = 1 + a + core.length + b from by omega,
      cspanBuf_tick]
    rfl
  simp only [char_codespan, Nat.zero_add]
  have hnb : firstIdx (fun j => byteAt d j != 96) 0 size = 1 := by
    apply firstIdx_spec _ _ _ (by omega)
    · simp only [bne_iff_ne, ne_eq]
      exact h96 1 (Nat.le_refl 1) (by omega)
    · omega
    · intro j hj hj1
      have hj0 : j = 0 := by omega
      subst hj0
      rw [show byteAt d 0 = 96 from cspanBuf_at0 a core b]
      rfl
  rw [hnb]
  have hclose : delimCloseScan d 0 size 96 1 0 1 = (size, 1) := by
    have := delimScan_one d 0 size (size - 1) htick (by omega) (by omega)
      (fun k hk hkm => by
        rw [Nat.zero_add, beq_eq_false_iff_ne]
        exact h96 k hk (by omega))
    rwa [show size - 1 + 1 = size from by omega] at this
  rw [hclose]
  rw [if_neg (by omega)]
  have hfb : firstIdx (fun j => byteAt d j != 32) 1 size = 1 + a := by
    apply firstIdx_spec _ _ _ (by omega)
    · simp only [bne_iff_ne, ne_eq]
      rw [hB (1 + a) (by omega) (by omega),
        show 1 + a - 1 - a = 0 from by omega]
      exact hhead'
    · omega
    · intro j hj hj1
      rw [hA j hj (by omega)]
      rfl
  rw [hfb]
  have hfe : shrinkIdx (fun j => byteAt d j == 32) 1 (size - 1) =
      1 + a + core.length := by
    apply shrinkIdx_spec _ _ _ _ (by omega) (by omega)
    · intro j hj hje
      rw [hC j (by omega) (by omega)]
      rfl
    · right
      simp only [beq_eq_false_iff_ne, ne_eq]
      rw [show 1 + a + core.length - 1 = a + core.length from by omega,
        hB (a + core.length) (by omega) (by omega),
        show a + core.length - 1 - a = core.length - 1 from by omega]
      exact hlast'
  rw [hfe]
  rw [if_pos (by omega)]
  rw [hcs]
  have hslice : slice d (1 + a) (1 + a + core.length - (1 + a)) = core := by
    rw [show 1 + a + core.length - (1 + a) = core.length from by omega]
    exact cspanBuf_drop a core b
  rw [hslice]
  rfl


/-- C8 counterexample: for `` ` a` `` the content between the runs is
`␣a`; a space is present only on the left, so the claimed rule keeps
the content unchanged, but the code records `a`. -/
theorem claim_C8_counterexample :
    (parse_inline cfg8 10 [96, 32, 97, 96] 0 4 [] {}).1 = [97] ∧
    claimCodespanContent [32, 97] = [32, 97] ∧
    ([97] : Buf) ≠ [32, 97] := by decide

/-- Witness for `claim_C8` at `` ` a` `` (one leading space, no
trailing space). -/
theorem claim_C8_witness :
    cfg8.rndr.codespan = some (fun ob c => (ob ++ c.getD [], true)) ∧
    ([97] : Buf) ≠ [] ∧ (∀ x ∈ ([97] : Buf), x ≠ 96) ∧
    (∀ x, ([97] : Buf).head? = some x → x ≠ 32) ∧
    (∀ x, ([97] : Buf).getLast? = some x → x ≠ 32) ∧
    char_codespan cfg8 (cspanBuf 1 [97] 0) 0 0
      (1 + ([97] : Buf).length + 0 + 2) [] {} =
      (1 + ([97] : Buf).length + 0 + 2, [] ++ [97], {}) :=
  ⟨rfl, by decide, by decide, by decide, by decide,
   claim_C8 cfg8 rfl 1 [97] 0 0 [] {} (by decide) (by decide) (by decide)
     (by decide)⟩


end Hoedown
